import Mathlib

/-!
# gomono: request execution pipeline and endpoint methods

A shallow embedding of `gomono.go`, `endpoints.go` and `responses.go`.

Go functions returning `(T, error)` are embedded as functions returning a pair
of options (`none` is Go's `nil`), so that "result is nil exactly when the error
is not" is a statement to prove and not a consequence of the return type.
Stateful code is embedded by explicit state passing: every call that may talk
to the network also returns the list of requests it handed to the client.

The Go standard library is not part of the repository.  The parts of it whose
behaviour is a short, closed rule are written out (`strings.ToLower`,
`fmt.Sprintf` on strings, `url.Values`, `url.QueryEscape`, `URL.Query`,
`http.Header.Set`); the parts that are
large or table driven (`encoding/json`, URL parsing, the Unicode case tables,
the network) are fields of the structure `Lib` or of the HTTP client, and every
general theorem holds for all of their values.
-/

set_option autoImplicit false
set_option maxRecDepth 8000

namespace Gomono

/-! ## Errors -/

/-- An error value produced by the standard library (`net/http`, `net/url`,
`encoding/json`); only its message is kept. -/
structure LibError where
  msg : String
  deriving DecidableEq, Repr

/-- The exported struct `Error` of `gomono.go`: a response whose status is not 200. -/
structure Error where
  Code : Int
  Body : String
  Endpoint : String
  deriving DecidableEq, Repr

/-- The values of Go's `error` interface that the package can return:
`errors.New` values, `Error` struct values, and errors passed on from the
library. `nilDeref` stands for the run-time panic of a call through a nil
`*http.Client`. -/
inductive GoError where
  | new (msg : String)
  | api (e : Error)
  | lib (e : LibError)
  | nilDeref
  deriving DecidableEq, Repr

/-- Dynamic type test: the error is a value of the struct type `Error`. -/
def GoError.isApiError : GoError → Bool
  | .api _ => true
  | _ => false

/-! ## HTTP data -/

/-- The unexported struct `header` of `gomono.go`. -/
structure header where
  Key : String
  Value : String
  deriving DecidableEq, Repr

/-- Go's `http.Header`: a map from canonical header name to its list of values. -/
abbrev Header := List (String × List String)

/-- The token bytes of RFC 7230, `textproto.validHeaderFieldByte`. -/
def validHeaderFieldByte (c : Char) : Bool :=
  c.isAlphanum || decide (c ∈ "!#$%&'*+-.^_`|~".toList)

/-- The rewriting loop of `textproto.canonicalMIMEHeaderKey`: upper-case the
first letter and every letter after a hyphen, lower-case the others. -/
def canonicalLoop : Bool → List Char → List Char
  | _, [] => []
  | upper, c :: cs =>
    let d := if upper && c.isLower then c.toUpper
             else if !upper && c.isUpper then c.toLower else c
    d :: canonicalLoop (d == '-') cs

/-- Go's `textproto.CanonicalMIMEHeaderKey`: a key with a byte that is not a
token byte is returned unchanged. -/
def CanonicalMIMEHeaderKey (s : String) : String :=
  if s.toList.all validHeaderFieldByte then String.mk (canonicalLoop true s.toList) else s

/-- Go's `Header.Set`: replace whatever is stored under the canonical key. -/
def Header.Set (h : Header) (key value : String) : Header :=
  (CanonicalMIMEHeaderKey key, [value]) ::
    h.filter (fun e => e.1 ≠ CanonicalMIMEHeaderKey key)

/-- Go's `Header.Values`: all values stored under the canonical key. -/
def Header.Values (h : Header) (key : String) : List String :=
  (h.lookup (CanonicalMIMEHeaderKey key)).getD []

/-- What `http.NewRequest` builds and the client receives. `Body` is `none` for
a nil `io.Reader`. -/
structure Request where
  Method : String
  URL : String
  Header : Header
  Body : Option String
  deriving DecidableEq, Repr

/-- What the client returns: the status code, and what `ioutil.ReadAll` gives
on the response body; a read error comes from the transport, as the error of
`Do` does. -/
structure Response where
  StatusCode : Int
  Body : Except LibError String

/-- Go's `http.Client` as far as the package uses it: the timeout (a
`time.Duration`, in nanoseconds) and the method `Do`. -/
structure HttpClient where
  Timeout : Nat
  Do : Request → Except LibError Response

/-! ## Configuration and construction -/

/-- The exported struct `Config`; `HttpClient` is a pointer and may be nil. -/
structure Config where
  SecretKey : String
  HttpClient : Option HttpClient
  ApiUrl : String

/-- The unexported struct `gomono`, the only implementation of the interface. -/
structure gomono where
  secretKey : String
  client : Option HttpClient
  apiUrl : String

/-- Translation of `validateConfig`: three checks in this order. -/
def validateConfig (cfg : Config) : Option GoError :=
  if cfg.SecretKey = "" then some (.new "gomono: Missing Secret Key")
  else if cfg.HttpClient.isNone then some (.new "gomono: HTTP Client Cannot Be Nil")
  else if cfg.ApiUrl = "" then some (.new "gomono: Missing API Url")
  else none

/-- Translation of `New`. -/
def New (cfg : Config) : Option gomono × Option GoError :=
  match validateConfig cfg with
  | some err => (none, some err)
  | none => (some ⟨cfg.SecretKey, cfg.HttpClient, cfg.ApiUrl⟩, none)

/-- Go's `time.Second`, in nanoseconds. -/
def Second : Nat := 1000000000

/-- Translation of `NewDefaultConfig`; `defaultDo` is the behaviour of a client
with a nil `Transport`, that is, of `http.DefaultTransport`. -/
def NewDefaultConfig (defaultDo : Request → Except LibError Response)
    (secretKey : String) : Config :=
  ⟨secretKey, some ⟨5 * Second, defaultDo⟩, "https://api.withmono.com"⟩

/-! ## Response shapes (`responses.go`) -/

/-- Anonymous struct `Meta` of `InformationResponse`. -/
structure InformationMeta where
  DataStatus : String

/-- Anonymous struct `Institution` inside `InformationResponse.Account`. -/
structure AccountInstitution where
  Name : String
  BankCode : String
  Type_ : String

/-- Anonymous struct `Account` of `InformationResponse`. -/
structure InformationAccount where
  ID : String
  Name : String
  Currency : String
  Type_ : String
  AccountNumber : String
  Balance : Float
  BVN : String
  Institution : AccountInstitution

structure InformationResponse where
  Meta : InformationMeta
  Account : InformationAccount

/-- An element of `StatementResponseJson.Data`. -/
structure StatementEntry where
  ID : String
  Type_ : String
  Date : String
  Narration : String
  Amount : Float
  Balance : Float

/-- Anonymous struct `Meta` of `StatementResponseJson`. -/
structure StatementMeta where
  Count : Int
  deriving DecidableEq, Repr

structure StatementResponseJson where
  Meta : StatementMeta
  Data : List StatementEntry

structure StatementResponsePdf where
  ID : String
  Status : String
  Path : String
  deriving DecidableEq, Repr

/-- The struct `StatementResponse`: two pointers, each possibly nil. -/
structure StatementResponse where
  JSON : Option StatementResponseJson
  PDF : Option StatementResponsePdf

/-- Anonymous struct `Paging` of `TransactionsResponse`. -/
structure Paging where
  Total : Int
  Page : Int
  Previous : String
  Next : String
  deriving DecidableEq, Repr

/-- An element of `TransactionsResponse.Data`. -/
structure TransactionEntry where
  ID : String
  Amount : Float
  Date : String
  Narration : String
  Type_ : String
  Category : String

structure TransactionsResponse where
  Paging : Paging
  Data : List TransactionEntry

/-- An element of `TransactionByTypeResponse.History`. -/
structure HistoryEntry where
  Amount : Float
  Period : String

structure TransactionByTypeResponse where
  Total : Float
  History : List HistoryEntry

structure IncomeResponse where
  Type_ : String
  Amount : Float
  Employer : String
  Confidence : Float

structure IdentityResponse where
  FirstName : String
  MiddleName : String
  LastName : String
  DateOfBirth : String
  PhoneNumber1 : String
  PhoneNumber2 : String
  RegistrationDate : String
  Email : String
  Gender : String
  LevelOfAccount : String
  LgaOfOrigin : String
  LgaOfResidence : String
  MaritalStatus : String
  NIN : String
  Nationality : String
  ResidentialAddress : String
  StateOfOrigin : String
  StateOfResidence : String
  Title : String
  WatchListed : String
  BVN : String
  PhotoID : String
  deriving DecidableEq, Repr

/-- Anonymous struct `Coverage` of `Institution`. -/
structure Coverage where
  Personal : Bool
  Business : Bool
  Countries : List String
  deriving DecidableEq, Repr

structure Institution where
  Name : String
  Icon : String
  Website : String
  Coverage : Coverage
  Products : List String
  deriving DecidableEq, Repr

structure InstitutionsResponse where
  Institutions : List Institution
  deriving DecidableEq, Repr

/-- Zero value of `InformationResponse` (`var respTarget InformationResponse`). -/
def InformationResponse.zero : InformationResponse :=
  ⟨⟨""⟩, ⟨"", "", "", "", "", 0, "", ⟨"", "", ""⟩⟩⟩

/-- Zero value of `StatementResponseJson`. -/
def StatementResponseJson.zero : StatementResponseJson := ⟨⟨0⟩, []⟩

/-- Zero value of `StatementResponsePdf`. -/
def StatementResponsePdf.zero : StatementResponsePdf := ⟨"", "", ""⟩

/-- Zero value of `StatementResponse` (`var result StatementResponse`). -/
def StatementResponse.zero : StatementResponse := ⟨none, none⟩

/-- Zero value of `TransactionsResponse`. -/
def TransactionsResponse.zero : TransactionsResponse := ⟨⟨0, 0, "", ""⟩, []⟩

/-- Zero value of `TransactionByTypeResponse`. -/
def TransactionByTypeResponse.zero : TransactionByTypeResponse := ⟨0, []⟩

/-- Zero value of `IncomeResponse`. -/
def IncomeResponse.zero : IncomeResponse := ⟨"", 0, "", 0⟩

/-- Zero value of `IdentityResponse`. -/
def IdentityResponse.zero : IdentityResponse :=
  ⟨"", "", "", "", "", "", "", "", "", "", "", "", "", "", "", "", "", "", "", "", "", ""⟩

/-! ## The standard library -/

/-- How `json.Unmarshal(b, &v)` acts on a target of type `α`: the content of
the target afterwards, and the error returned. -/
abbrev Unmarshal (α : Type) := String → α → α × Option LibError

/-- Go's `map[string]string`. -/
abbrev StringMap := List (String × String)

/-- Index expression `m[key]` on a `map[string]string`: the zero value `""` for
a missing key. -/
def StringMap.index (m : StringMap) (key : String) : String :=
  (m.lookup key).getD ""

/-- The parts of the Go standard library the package calls and this
development does not write out. -/
structure Lib where
  /-- Go's `unicode.ToLower` on runes above `unicode.MaxASCII` (the case tables). -/
  lowerCase : Char → Char
  /-- Go's `json.Marshal` on a `map[string]string`. -/
  jsonMarshal : StringMap → Except LibError String
  /-- The error of `http.NewRequest(method, url, body)`, if any: an invalid
  method, or a URL that `url.Parse` rejects. -/
  checkRequest : String → String → Option LibError
  /-- The value of `req.URL.String()` for a request built from the given URL string. -/
  urlString : String → String
  /-- Go's `json.Unmarshal` into `*map[string]string`; the fields below are the
  same function at the other target types the package decodes into. -/
  unmarshalMap : Unmarshal StringMap
  unmarshalInformation : Unmarshal InformationResponse
  unmarshalStatementPdf : Unmarshal StatementResponsePdf
  unmarshalStatementJson : Unmarshal StatementResponseJson
  unmarshalTransactions : Unmarshal TransactionsResponse
  unmarshalTransactionByType : Unmarshal TransactionByTypeResponse
  unmarshalIncome : Unmarshal IncomeResponse
  unmarshalIdentity : Unmarshal IdentityResponse
  unmarshalInstitutions : Unmarshal (List Institution)

/-- Go's `unicode.ToLower`: ASCII is handled in place, the rest by the tables. -/
def unicodeToLower (lib : Lib) (r : Char) : Char :=
  if r.toNat ≤ 127 then r.toLower else lib.lowerCase r

/-- Go's `strings.ToLower`. -/
def ToLower (lib : Lib) (s : String) : String :=
  String.mk (s.toList.map (unicodeToLower lib))

/-- UTF-8 encoding of one rune, as a list of byte values. -/
def utf8Bytes (c : Char) : List Nat :=
  let n := c.toNat
  if n < 128 then [n]
  else if n < 2048 then [192 + n / 64, 128 + n % 64]
  else if n < 65536 then [224 + n / 4096, 128 + n / 64 % 64, 128 + n % 64]
  else [240 + n / 262144, 128 + n / 4096 % 64, 128 + n / 64 % 64, 128 + n % 64]

/-- The bytes of a Go string. -/
def bytes (s : String) : List Nat :=
  s.toList.flatMap utf8Bytes

/-- One upper-case hexadecimal digit. -/
def hexDigit (n : Nat) : Char :=
  "0123456789ABCDEF".toList.getD n '0'

/-- Go's `url.shouldEscape` in mode `encodeQueryComponent`, on one byte: only
the unreserved characters are left alone. -/
def shouldEscape (b : Nat) : Bool :=
  !((Char.ofNat b).isAlphanum || decide (Char.ofNat b ∈ "-_.~".toList)) || decide (128 ≤ b)

/-- Go's `url.QueryEscape`, byte by byte. -/
def escapeByte (b : Nat) : List Char :=
  if shouldEscape b then
    if b = 32 then ['+'] else ['%', hexDigit (b / 16), hexDigit (b % 16)]
  else [Char.ofNat b]

/-- Go's `url.QueryEscape`. -/
def QueryEscape (s : String) : String :=
  String.mk ((bytes s).flatMap escapeByte)

/-- Byte-wise lexicographic order, the order of `sort.Strings`. -/
def bytesLt : List Nat → List Nat → Bool
  | [], [] => false
  | [], _ :: _ => true
  | _ :: _, [] => false
  | a :: as, b :: bs => decide (a < b) || (a == b && bytesLt as bs)

/-- Insertion of a key into a list sorted by `bytesLt`. -/
def insertKey (k : String) : List String → List String
  | [] => [k]
  | x :: xs => if bytesLt (bytes x) (bytes k) then x :: insertKey k xs else k :: x :: xs

/-- Go's `sort.Strings` on the keys of a map. -/
def sortKeys (ks : List String) : List String :=
  ks.foldr insertKey []

/-- Go's `url.Values`: a map from key to its list of values. -/
abbrev Values := List (String × List String)

/-- Go's `Values.Add`: append the value to the list stored under the key. -/
def Values.Add (v : Values) (key value : String) : Values :=
  if v.any (fun e => e.1 == key) then
    v.map (fun e => if e.1 = key then (e.1, e.2 ++ [value]) else e)
  else v ++ [(key, [value])]

/-- Go's `Values.Encode`: `key=value` pairs, both escaped, joined by `&`, keys
in sorted order. -/
def Values.Encode (v : Values) : String :=
  "&".intercalate
    ((sortKeys (v.map Prod.fst)).flatMap fun k =>
      ((v.lookup k).getD []).map fun x => QueryEscape k ++ "=" ++ QueryEscape x)

/-- Go's `strconv.FormatBool`. -/
def FormatBool (b : Bool) : String :=
  if b then "true" else "false"

/-- Go's `http.NewRequest`: an empty method means GET; the header map starts
empty. -/
def NewRequest (lib : Lib) (method url : String) (body : Option String) :
    Except LibError Request :=
  let method := if method = "" then "GET" else method
  match lib.checkRequest method url with
  | some e => .error e
  | none => .ok ⟨method, url, [], body⟩

/-! ## The request executor (`gomono.go`) -/

/-- What a call leaves behind: its first return value (for `makeRequest`, the
content of the decode target afterwards), the returned error, and the requests
handed to the client's `Do`, in order. -/
structure Outcome (ρ : Type) where
  value : ρ
  err : Option GoError
  sent : List Request

/-- The argument `responseTarget interface{}` of `makeRequest`, by the kind of
its dynamic type: `&v` for a variable currently holding `v`, or a value that is
not a pointer. -/
inductive ResponseTarget (α : Type) where
  | pointer (v : α)
  | value (v : α)

/-- The test `reflect.TypeOf(responseTarget).Kind() == reflect.Ptr`. -/
def ResponseTarget.isPtr {α : Type} : ResponseTarget α → Bool
  | .pointer _ => true
  | .value _ => false

/-- The content held by (or behind) the target. -/
def ResponseTarget.content {α : Type} : ResponseTarget α → α
  | .pointer v => v
  | .value v => v

/-- Translation of `preparePayload` on a `map[string]string` body: a reader
over the marshalled bytes, or nil and the error. -/
def preparePayload (lib : Lib) (body : StringMap) : Option String × Option GoError :=
  match lib.jsonMarshal body with
  | .error err => (none, some (.lib err))
  | .ok b => (some b, none)

/-- The statement `req.Header.Set(key, value)`. -/
def Request.setHeader (req : Request) (key value : String) : Request :=
  ⟨req.Method, req.URL, req.Header.Set key value, req.Body⟩

/-- The header part of `makeRequest`: the caller's headers in order, then the
three fixed ones. -/
def applyHeaders (g : gomono) (headers : List header) (req : Request) : Request :=
  (((headers.foldl (fun r h => r.setHeader h.Key h.Value) req).setHeader
      "mono-sec-key" g.secretKey).setHeader
      "Content-Type" "application/json").setHeader
      "X-Client-Lib" "GoMono | v1 | github.com/jcobhams/gomono"

/-- Translation of `makeRequest`. `unmarshal` is how `json.Unmarshal` decodes
into the type of the target. -/
def makeRequest {α : Type} (lib : Lib) (g : gomono) (method url : String)
    (body : Option String) (headers : List header) (unmarshal : Unmarshal α)
    (responseTarget : ResponseTarget α) : Outcome α :=
  let v := responseTarget.content
  if !responseTarget.isPtr then
    ⟨v, some (.new
      "gomono: responseTarget must be a pointer to a struct for JSON unmarshalling"), []⟩
  else
    match NewRequest lib method url body with
    | .error err => ⟨v, some (.lib err), []⟩
    | .ok req0 =>
      let req := applyHeaders g headers req0
      match g.client with
      | none => ⟨v, some .nilDeref, []⟩
      | some client =>
        match client.Do req with
        | .error err => ⟨v, some (.lib err), [req]⟩
        | .ok resp =>
          match resp.Body with
          | .error err => ⟨v, some (.lib err), [req]⟩
          | .ok b =>
            if resp.StatusCode = 200 then
              match unmarshal b v with
              | (w, some err) => ⟨w, some (.lib err), [req]⟩
              | (w, none) => ⟨w, none, [req]⟩
            else
              ⟨v, some (.api ⟨resp.StatusCode, b, lib.urlString req.URL⟩), [req]⟩

/-! ## The endpoint methods (`endpoints.go`) -/

/-- Translation of `ExchangeToken`. -/
def ExchangeToken (lib : Lib) (g : gomono) (code : String) : Outcome String :=
  if code = "" then ⟨"", some (.new "gomono: Code cannot be blank"), []⟩
  else
    match preparePayload lib [("code", code)] with
    | (_, some err) => ⟨"", some err, []⟩
    | (payload, none) =>
      let r := makeRequest lib g "POST" (g.apiUrl ++ "/account/auth") payload []
        lib.unmarshalMap (.pointer [])
      match r.err with
      | some err => ⟨"", some err, r.sent⟩
      | none => ⟨r.value.index "id", none, r.sent⟩

/-- Translation of `Information`. -/
def Information (lib : Lib) (g : gomono) (id : String) :
    Outcome (Option InformationResponse) :=
  if id = "" then ⟨none, some (.new "gomono: ID is required"), []⟩
  else
    let r := makeRequest lib g "POST" (g.apiUrl ++ "/accounts/" ++ id) none []
      lib.unmarshalInformation (.pointer InformationResponse.zero)
    match r.err with
    | some err => ⟨none, some err, r.sent⟩
    | none => ⟨some r.value, none, r.sent⟩

/-- The query parameters `Statement` collects, from the lower-cased output and
the period. -/
def statementParams (output period : String) : Values :=
  let params : Values := []
  let params := if output ≠ "" then params.Add "output" output else params
  if period ≠ "" then params.Add "period" period else params

/-- Translation of `Statement`. -/
def Statement (lib : Lib) (g : gomono) (id period output : String) :
    Outcome (Option StatementResponse) :=
  if id = "" then ⟨none, some (.new "gomono: ID is required"), []⟩
  else
    let output := ToLower lib output
    if output ≠ "" ∧ output ≠ "pdf" ∧ output ≠ "json" then
      ⟨none, some (.new "gomono: only json or pdf output supported"), []⟩
    else
      let params := statementParams output period
      let endpoint := g.apiUrl ++ "/accounts/" ++ id ++ "/statement?" ++ params.Encode
      let result := StatementResponse.zero
      if output = "pdf" then
        let r := makeRequest lib g "GET" endpoint none [] lib.unmarshalStatementPdf
          (.pointer StatementResponsePdf.zero)
        match r.err with
        | some err => ⟨none, some err, r.sent⟩
        | none => ⟨some ⟨result.JSON, some r.value⟩, none, r.sent⟩
      else if output = "json" then
        let r := makeRequest lib g "POST" endpoint none [] lib.unmarshalStatementJson
          (.pointer StatementResponseJson.zero)
        match r.err with
        | some err => ⟨none, some err, r.sent⟩
        | none => ⟨some ⟨some r.value, result.PDF⟩, none, r.sent⟩
      else ⟨some result, none, []⟩

/-- Translation of `PdfStatementJobStatus`. -/
def PdfStatementJobStatus (lib : Lib) (g : gomono) (id jobId : String) :
    Outcome (Option StatementResponsePdf) :=
  if id = "" then ⟨none, some (.new "gomono: ID is required"), []⟩
  else if jobId = "" then ⟨none, some (.new "gomono: JOBID is required"), []⟩
  else
    let r := makeRequest lib g "GET"
      (g.apiUrl ++ "/accounts/" ++ id ++ "/statement/jobs/" ++ jobId ++ "?") none []
      lib.unmarshalStatementPdf (.pointer StatementResponsePdf.zero)
    match r.err with
    | some err => ⟨none, some err, r.sent⟩
    | none => ⟨some r.value, none, r.sent⟩

/-- The query parameters `Transactions` collects. -/
def transactionsParams (start «end» narration tnxType : String) (paginate : Bool) : Values :=
  let params : Values := []
  let params := if start ≠ "" then params.Add "start" start else params
  let params := if «end» ≠ "" then params.Add "end" «end» else params
  let params := if narration ≠ "" then params.Add "narration" narration else params
  let params := if tnxType ≠ "" then params.Add "type" tnxType else params
  params.Add "paginate" (FormatBool paginate)

/-- Translation of `Transactions`. -/
def Transactions (lib : Lib) (g : gomono) (id start «end» narration tnxType : String)
    (paginate : Bool) : Outcome (Option TransactionsResponse) :=
  if id = "" then ⟨none, some (.new "gomono: ID is required"), []⟩
  else
    let params := transactionsParams start «end» narration tnxType paginate
    let r := makeRequest lib g "GET"
      (g.apiUrl ++ "/accounts/" ++ id ++ "/transactions?" ++ params.Encode) none []
      lib.unmarshalTransactions (.pointer TransactionsResponse.zero)
    match r.err with
    | some err => ⟨none, some err, r.sent⟩
    | none => ⟨some r.value, none, r.sent⟩

/-- Translation of `transactionByType`. -/
def transactionByType (lib : Lib) (g : gomono) (id tnxType : String) :
    Outcome (Option TransactionByTypeResponse) :=
  if id = "" then ⟨none, some (.new "gomono: ID is required"), []⟩
  else
    let r := makeRequest lib g "GET" (g.apiUrl ++ "/accounts/" ++ id ++ "/" ++ tnxType)
      none [] lib.unmarshalTransactionByType (.pointer TransactionByTypeResponse.zero)
    match r.err with
    | some err => ⟨none, some err, r.sent⟩
    | none => ⟨some r.value, none, r.sent⟩

/-- Translation of `CreditTransactions`. -/
def CreditTransactions (lib : Lib) (g : gomono) (id : String) :
    Outcome (Option TransactionByTypeResponse) :=
  transactionByType lib g id "credit"

/-- Translation of `DebitTransactions`. -/
def DebitTransactions (lib : Lib) (g : gomono) (id : String) :
    Outcome (Option TransactionByTypeResponse) :=
  transactionByType lib g id "debit"

/-- Translation of `Income`. -/
def Income (lib : Lib) (g : gomono) (id : String) : Outcome (Option IncomeResponse) :=
  if id = "" then ⟨none, some (.new "gomono: ID is required"), []⟩
  else
    let r := makeRequest lib g "GET" (g.apiUrl ++ "/accounts/" ++ id ++ "/income") none []
      lib.unmarshalIncome (.pointer IncomeResponse.zero)
    match r.err with
    | some err => ⟨none, some err, r.sent⟩
    | none => ⟨some r.value, none, r.sent⟩

/-- Translation of `Identity`. -/
def Identity (lib : Lib) (g : gomono) (id : String) : Outcome (Option IdentityResponse) :=
  if id = "" then ⟨none, some (.new "gomono: ID is required"), []⟩
  else
    let r := makeRequest lib g "GET" (g.apiUrl ++ "/accounts/" ++ id ++ "/identity") none []
      lib.unmarshalIdentity (.pointer IdentityResponse.zero)
    match r.err with
    | some err => ⟨none, some err, r.sent⟩
    | none => ⟨some r.value, none, r.sent⟩

/-- Translation of `Institutions`; the target is a nil slice. -/
def Institutions (lib : Lib) (g : gomono) : Outcome (Option InstitutionsResponse) :=
  let r := makeRequest lib g "GET" (g.apiUrl ++ "/coverage") none []
    lib.unmarshalInstitutions (.pointer [])
  match r.err with
  | some err => ⟨none, some err, r.sent⟩
  | none => ⟨some ⟨r.value⟩, none, r.sent⟩

/-- Translation of `LookupBVN`. -/
def LookupBVN (lib : Lib) (g : gomono) (bvn : String) : Outcome (Option IdentityResponse) :=
  if bvn = "" then ⟨none, some (.new "gomono: BVN is required"), []⟩
  else
    match preparePayload lib [("bvn", bvn)] with
    | (_, some err) => ⟨none, some err, []⟩
    | (payload, none) =>
      let r := makeRequest lib g "POST" (g.apiUrl ++ "/v1/lookup/bvn/identity") payload []
        lib.unmarshalIdentity (.pointer IdentityResponse.zero)
      match r.err with
      | some err => ⟨none, some err, r.sent⟩
      | none => ⟨some r.value, none, r.sent⟩

/-! ## A library and clients for evaluating the definitions

The general theorems hold for every `Lib` and every client. The instances below
are what the definitions are run on at concrete inputs. -/

/-- Skip JSON white space. -/
def skipWs : List Char → List Char
  | [] => []
  | c :: cs => if c = ' ' ∨ c = '\n' ∨ c = '\t' ∨ c = '\r' then skipWs cs else c :: cs

/-- The character a two-character JSON escape stands for; `\u` escapes are not
handled. -/
def unescapeJSON (e : Char) : Option Char :=
  if e = '"' then some '"'
  else if e = '\\' then some '\\'
  else if e = '/' then some '/'
  else if e = 'b' then some (Char.ofNat 8)
  else if e = 'f' then some (Char.ofNat 12)
  else if e = 'n' then some '\n'
  else if e = 'r' then some '\r'
  else if e = 't' then some '\t'
  else none

/-- Read a JSON string after its opening quote, up to the closing quote; gives
up on a `\u` escape or a control character. -/
def readString : List Char → Option (List Char × List Char)
  | [] => none
  | c :: cs =>
    if c = '"' then some ([], cs)
    else if c = '\\' then
      match cs with
      | [] => none
      | e :: cs2 =>
        match unescapeJSON e, readString cs2 with
        | some d, some (str, rest) => some (d :: str, rest)
        | _, _ => none
    else if c.toNat < 32 then none
    else match readString cs with
      | some (str, rest) => some (c :: str, rest)
      | none => none

/-- Read the members of a JSON object whose values are strings, after the
opening brace or a comma; a later member is put in front of an earlier one. -/
def readMembers : Nat → StringMap → List Char → Option StringMap
  | 0, _, _ => none
  | fuel + 1, acc, cs =>
    match skipWs cs with
    | '"' :: cs1 =>
      match readString cs1 with
      | none => none
      | some (key, cs2) =>
        match skipWs cs2 with
        | ':' :: cs3 =>
          match skipWs cs3 with
          | '"' :: cs4 =>
            match readString cs4 with
            | none => none
            | some (val, cs5) =>
              match skipWs cs5 with
              | ',' :: cs6 => readMembers fuel ((String.mk key, String.mk val) :: acc) cs6
              | '}' :: cs6 =>
                if skipWs cs6 = [] then some ((String.mk key, String.mk val) :: acc) else none
              | _ => none
          | _ => none
        | _ => none
    | _ => none

/-- Decode a JSON object whose values are strings. -/
def readObject (b : String) : Option StringMap :=
  match skipWs b.toList with
  | '{' :: cs =>
    match skipWs cs with
    | '}' :: rest => if skipWs rest = [] then some [] else none
    | _ => readMembers b.length [] cs
  | _ => none

/-- The JSON text is `null`, white space apart. -/
def isNull (b : String) : Bool :=
  match skipWs b.toList with
  | 'n' :: 'u' :: 'l' :: 'l' :: rest => skipWs rest == []
  | _ => false

/-- A decoder for `map[string]string` targets on objects of strings: the
decoded members are added to the map; `null` makes the map nil. -/
def readStringMap : Unmarshal StringMap := fun b m =>
  match readObject b with
  | some kvs => (kvs ++ m, none)
  | none => if isNull b then ([], none) else (m, some ⟨"json: cannot decode"⟩)

/-- A decoder for `StatementResponsePdf` targets on objects of strings: the
fields `id`, `status` and `path` that are present are overwritten; `null` leaves
the target as it is. -/
def readStatementPdf : Unmarshal StatementResponsePdf := fun b v =>
  match readObject b with
  | some kvs =>
    (⟨(kvs.lookup "id").getD v.ID, (kvs.lookup "status").getD v.Status,
      (kvs.lookup "path").getD v.Path⟩, none)
  | none => if isNull b then (v, none) else (v, some ⟨"json: cannot decode"⟩)

/-- A decoder that accepts the text `null`, which leaves a target unchanged,
and nothing else. -/
def readNull {α : Type} : Unmarshal α := fun b v =>
  if b = "null" then (v, none) else (v, some ⟨"json: cannot decode"⟩)

/-- The test `stringContainsCTLByte` of `net/url`. -/
def stringContainsCTLByte (s : String) : Bool :=
  (bytes s).any fun b => decide (b < 32) || b == 127

/-- A library instance: lower-casing leaves non-ASCII runes alone, maps are
marshalled without escaping, a URL is rejected when it contains an ASCII control
byte (the first check of `url.Parse`) and printed back unchanged, and only
objects of strings (and `null`) are decoded. -/
def testLib : Lib where
  lowerCase := id
  jsonMarshal := fun m =>
    .ok ("\x7b" ++ ",".intercalate (m.map fun kv => "\"" ++ kv.1 ++ "\":\"" ++ kv.2 ++ "\"")
      ++ "\x7d")
  checkRequest := fun _ url =>
    if stringContainsCTLByte url then some ⟨"net/url: invalid control character in URL"⟩
    else none
  urlString := id
  unmarshalMap := readStringMap
  unmarshalInformation := readNull
  unmarshalStatementPdf := readStatementPdf
  unmarshalStatementJson := readNull
  unmarshalTransactions := readNull
  unmarshalTransactionByType := readNull
  unmarshalIncome := readNull
  unmarshalIdentity := readNull
  unmarshalInstitutions := readNull

/-- A client that answers every request with the given status and body. -/
def respond (status : Int) (body : String) : HttpClient :=
  ⟨Second, fun _ => .ok ⟨status, .ok body⟩⟩

/-- A client whose every exchange fails, as a closed server does. -/
def refuse : HttpClient :=
  ⟨Second, fun _ => .error ⟨"dial tcp: connection refused"⟩⟩

/-- The variables `testAccountId`, `testJobId` and `testSecretKey` of the tests. -/
def testAccountId : String := "5fc68b964bdcbe4eb164e852"

def testJobId : String := "MvRh2vWwv5CGafudTivY"

def testSecretKey : String := "TEST_SECRET_KEY"

/-- A client value as `New` builds it, for the given HTTP client. -/
def testClient (client : HttpClient) : gomono :=
  ⟨testSecretKey, some client, "http://127.0.0.1:8080"⟩

/-- Caller headers that try to replace two of the fixed headers and give
`X-Trace` twice, in two spellings. -/
def sampleHeaders : List header :=
  [⟨"MONO-SEC-KEY", "forged"⟩, ⟨"x-trace", "1"⟩, ⟨"content-type", "text/plain"⟩,
    ⟨"X-TRACE", "2"⟩]

/-- The body the mock server of the tests serves for a PDF statement. -/
def testPdfBody : String :=
  "\x7b\"id\": \"MvRh2vWwv5CGafudTivY\", \"status\": \"BUILDING\", \"path\": \"https://api.withmono.com/statements/pvLhFR89Id2zrnPGJZcM.pdf\"\x7d"

/-! ## The query of a URL (`net/url`) -/

/-- Go's `strings.Cut` for a one-byte separator: the text before the first
separator, and the text after it when there is one. -/
def cut (sep : Char) : List Char → List Char × Option (List Char)
  | [] => ([], none)
  | c :: cs => if c = sep then ([], some cs) else (c :: (cut sep cs).1, (cut sep cs).2)

/-- The field `RawQuery` that `url.Parse` gives a URL: the fragment is cut off
at the first `#`, and the query is what follows the first `?` of the rest. -/
def RawQuery (rawURL : String) : List Char :=
  ((cut '?' (cut '#' rawURL.toList).1).2).getD []

/-- What precedes the query and the fragment in a URL: scheme, host and path. -/
def beforeQuery (rawURL : String) : List Char :=
  (cut '?' (cut '#' rawURL.toList).1).1

/-- Go's `url.ishex`. -/
def ishex (c : Char) : Bool :=
  c.isDigit || decide ('a' ≤ c ∧ c ≤ 'f') || decide ('A' ≤ c ∧ c ≤ 'F')

/-- Go's `url.unhex`. -/
def unhex (c : Char) : Nat :=
  if c.isDigit then c.toNat - 48
  else if 'a' ≤ c ∧ c ≤ 'f' then c.toNat - 97 + 10
  else if 'A' ≤ c ∧ c ≤ 'F' then c.toNat - 65 + 10
  else 0

/-- Go's `url.QueryUnescape`, giving the bytes of the result: `%XX` is one byte,
`+` is a space, and a `%` not followed by two hexadecimal digits is an error. -/
def QueryUnescape : List Char → Option (List Nat)
  | [] => some []
  | c :: rest =>
    if c = '%' then
      match rest with
      | h1 :: h2 :: rest2 =>
        if ishex h1 && ishex h2 then
          (QueryUnescape rest2).map fun bs => (unhex h1 * 16 + unhex h2) :: bs
        else none
      | _ => none
    else if c = '+' then (QueryUnescape rest).map fun bs => 32 :: bs
    else (QueryUnescape rest).map fun bs => utf8Bytes c ++ bs

/-- The pieces of a query between its `&` separators. -/
def splitAmp : List Char → List (List Char)
  | [] => [[]]
  | c :: cs =>
    if c = '&' then [] :: splitAmp cs
    else match splitAmp cs with
      | [] => [[c]]
      | p :: ps => (c :: p) :: ps

/-- One round of the loop of `url.ParseQuery`: a piece that is empty, holds a
semicolon or does not unescape adds nothing; otherwise the key is what precedes
the first `=` and the value what follows it. -/
def parsePair (piece : List Char) : Option (List Nat × List Nat) :=
  if ';' ∈ piece then none
  else if piece = [] then none
  else
    match QueryUnescape (cut '=' piece).1, QueryUnescape ((cut '=' piece).2.getD []) with
    | some k, some v => some (k, v)
    | _, _ => none

/-- Go's `URL.Query()` on a raw query: the key and value bytes of every
well-formed pair, in order; malformed pairs are dropped. -/
def Query (rawQuery : List Char) : List (List Nat × List Nat) :=
  (splitAmp rawQuery).filterMap parsePair

/-- The parameters of `Transactions` as the specification lists them: `end`,
`narration`, `start` and `type` for the arguments that are not empty, and always
`paginate`; in key order. -/
def transactionsPairs (start «end» narration tnxType : String) (paginate : Bool) :
    List (String × String) :=
  (if «end» = "" then [] else [("end", «end»)]) ++
    (if narration = "" then [] else [("narration", narration)]) ++
    [("paginate", if paginate then "true" else "false")] ++
    (if start = "" then [] else [("start", start)]) ++
    (if tnxType = "" then [] else [("type", tnxType)])

/-- The check behind the escaping lemmas, on one byte: what `escapeByte`
writes is made of characters that are no separator of a URL or of a query, and
`QueryUnescape` reads it back as that byte. -/
def escapeRoundTrips (b : Nat) : Bool :=
  (escapeByte b).all (fun c => c != '&' && c != '=' && c != ';' && c != '#' && c != '?') &&
  (match escapeByte b with
    | [c] => (c == '+' && b == 32) || (c != '%' && c != '+' && utf8Bytes c == [b])
    | [c, h1, h2] => c == '%' && ishex h1 && ishex h2 && unhex h1 * 16 + unhex h2 == b
    | _ => false)

/-! ## Specification predicates -/

/-- The call handed exactly one request to the client, and if the client failed
on it the failure is the error returned. -/
def oneExchange {ρ : Type} (client : HttpClient) (o : Outcome ρ) : Prop :=
  ∃ req, o.sent = [req] ∧ ∀ e, client.Do req = .error e → o.err = some (.lib e)

/-- The call returned the library error `e` without handing any request to the
client. -/
def noExchange {ρ : Type} (e : LibError) (o : Outcome ρ) : Prop :=
  o.err = some (.lib e) ∧ o.sent = []

/-- The query string of `Transactions` as the specification describes it: one
`key=value` pair for each of `start`, `end`, `narration` and `type` whose
argument is not empty, and always one for `paginate`, written in key order with
the values escaped. -/
def transactionsQuery (start «end» narration tnxType : String) (paginate : Bool) : String :=
  "&".intercalate
    ((if «end» = "" then [] else ["end=" ++ QueryEscape «end»]) ++
      (if narration = "" then [] else ["narration=" ++ QueryEscape narration]) ++
      ["paginate=" ++ (if paginate then "true" else "false")] ++
      (if start = "" then [] else ["start=" ++ QueryEscape start]) ++
      (if tnxType = "" then [] else ["type=" ++ QueryEscape tnxType]))

/-- A character that stands for itself inside a JSON string: no double quote,
no backslash, no control character. -/
def plainChar (c : Char) : Bool :=
  c != '"' && c != '\\' && decide (32 ≤ c.toNat)

/-- The error of the first branch of `makeRequest`, returned for a target that
is not a pointer. -/
def invalidTarget : GoError :=
  .new "gomono: responseTarget must be a pointer to a struct for JSON unmarshalling"

/-! ## Construction: `New` and `validateConfig` -/

/-- C3: `New` returns a nil client and a non-nil error exactly when the secret
key is empty, the HTTP client is nil or the API URL is empty; the error is the
missing-secret-key error whenever the key is empty, the nil-client error when
the key is present and the client is nil, the missing-URL error when only the
URL is empty; otherwise there is no error and the client holds the three
configured values. -/
theorem New_spec (cfg : Config) :
    (((New cfg).1 = none ∧ (New cfg).2 ≠ none) ↔
      (cfg.SecretKey = "" ∨ cfg.HttpClient = none ∨ cfg.ApiUrl = "")) ∧
    (cfg.SecretKey = "" →
      New cfg = (none, some (.new "gomono: Missing Secret Key"))) ∧
    (cfg.SecretKey ≠ "" → cfg.HttpClient = none →
      New cfg = (none, some (.new "gomono: HTTP Client Cannot Be Nil"))) ∧
    (cfg.SecretKey ≠ "" → cfg.HttpClient ≠ none → cfg.ApiUrl = "" →
      New cfg = (none, some (.new "gomono: Missing API Url"))) ∧
    (cfg.SecretKey ≠ "" → cfg.HttpClient ≠ none → cfg.ApiUrl ≠ "" →
      New cfg = (some ⟨cfg.SecretKey, cfg.HttpClient, cfg.ApiUrl⟩, none)) := by
  obtain ⟨key, client, url⟩ := cfg
  by_cases hk : key = "" <;> by_cases hu : url = "" <;> cases client <;>
    simp [New, validateConfig, hk, hu]

/-! ## `makeRequest`: status branching -/

/-- C1: when `makeRequest` is called with a pointer target, the request is
built, the client returns a response and its body is read, the returned error
is an `Error` value exactly when the status is not 200, and then its `Code` is
the status and its `Body` the body read, whatever the body is. -/
theorem makeRequest_apiError_iff {α : Type} (lib : Lib) (g : gomono) (method url : String)
    (body : Option String) (headers : List header) (unmarshal : Unmarshal α) (v : α)
    (client : HttpClient) (req0 : Request) (resp : Response) (b : String)
    (hclient : g.client = some client)
    (hreq : NewRequest lib method url body = .ok req0)
    (hdo : client.Do (applyHeaders g headers req0) = .ok resp)
    (hbody : resp.Body = .ok b) :
    ((∃ e, (makeRequest lib g method url body headers unmarshal (.pointer v)).err
        = some (.api e)) ↔ resp.StatusCode ≠ 200) ∧
    (resp.StatusCode ≠ 200 →
      ∃ e, (makeRequest lib g method url body headers unmarshal (.pointer v)).err
          = some (.api e) ∧ e.Code = resp.StatusCode ∧ e.Body = b) := by
  by_cases hs : resp.StatusCode = 200
  · have h : ∀ e, (makeRequest lib g method url body headers unmarshal (.pointer v)).err
        ≠ some (.api e) := by
      intro e
      simp only [makeRequest, ResponseTarget.isPtr, ResponseTarget.content, hreq, hclient,
        hdo, hbody, hs]
      rcases hu : unmarshal b v with ⟨w, _ | err⟩ <;> simp
    constructor
    · constructor
      · rintro ⟨e, he⟩
        exact absurd he (h e)
      · intro hne
        exact absurd hs hne
    · intro hne
      exact absurd hs hne
  · have h : (makeRequest lib g method url body headers unmarshal (.pointer v)).err
        = some (.api ⟨resp.StatusCode, b, lib.urlString (applyHeaders g headers req0).URL⟩) := by
      simp [makeRequest, ResponseTarget.isPtr, ResponseTarget.content, hreq, hclient,
        hdo, hbody, hs]
    exact ⟨⟨fun _ => hs, fun _ => ⟨_, h⟩⟩, fun _ => ⟨_, h, rfl, rfl⟩⟩

/-- C1, at concrete inputs: a 201 answer with an HTML body is an `Error` with
code 201 and that body. -/
theorem makeRequest_apiError_iff_witness :
    ((∃ e, (makeRequest testLib (testClient (respond 201 "<html>")) "GET"
        "http://127.0.0.1:8080/coverage" none [] readNull
        (.pointer ([] : List Institution))).err = some (.api e)) ↔ (201 : Int) ≠ 200) ∧
    ((201 : Int) ≠ 200 →
      ∃ e, (makeRequest testLib (testClient (respond 201 "<html>")) "GET"
        "http://127.0.0.1:8080/coverage" none [] readNull
        (.pointer ([] : List Institution))).err = some (.api e) ∧
        e.Code = 201 ∧ e.Body = "<html>") :=
  makeRequest_apiError_iff testLib (testClient (respond 201 "<html>")) "GET"
    "http://127.0.0.1:8080/coverage" none [] readNull [] (respond 201 "<html>")
    ⟨"GET", "http://127.0.0.1:8080/coverage", [], none⟩ ⟨201, .ok "<html>"⟩ "<html>"
    rfl rfl rfl rfl

/-! ## `makeRequest`: headers -/

theorem lookup_filter_ne (h : Header) (k c : String) (hne : k ≠ c) :
    (h.filter (fun e => e.1 ≠ c)).lookup k = h.lookup k := by
  induction h with
  | nil => rfl
  | cons e t ih =>
    obtain ⟨a, vs⟩ := e
    by_cases hac : a = c
    · subst hac
      have hka : (k == a) = false := by simpa using hne
      simpa [List.filter, List.lookup, hka] using ih
    · by_cases hka : k = a
      · subst hka
        simp [List.filter, hac, List.lookup]
      · have hka2 : (k == a) = false := by simpa using hka
        simpa [List.filter, hac, List.lookup, hka2] using ih

theorem Values_Set_same (h : Header) (key value key2 : String)
    (hk : CanonicalMIMEHeaderKey key2 = CanonicalMIMEHeaderKey key) :
    (Header.Set h key value).Values key2 = [value] := by
  simp [Header.Set, Header.Values, hk, List.lookup]

theorem Values_Set_other (h : Header) (key value key2 : String)
    (hk : CanonicalMIMEHeaderKey key2 ≠ CanonicalMIMEHeaderKey key) :
    (Header.Set h key value).Values key2 = Header.Values h key2 := by
  have hb : (CanonicalMIMEHeaderKey key2 == CanonicalMIMEHeaderKey key) = false := by
    simpa using hk
  simp only [Header.Set, Header.Values, List.lookup, hb]
  rw [lookup_filter_ne _ _ _ hk]

theorem foldl_setHeader_Values (post : List header) (req : Request) (key : String)
    (hpost : ∀ x ∈ post, CanonicalMIMEHeaderKey x.Key ≠ CanonicalMIMEHeaderKey key) :
    (post.foldl (fun r x => r.setHeader x.Key x.Value) req).Header.Values key
      = req.Header.Values key := by
  induction post generalizing req with
  | nil => rfl
  | cons x t ih =>
    rw [List.foldl_cons, ih _ (fun y hy => hpost y (List.mem_cons_of_mem _ hy))]
    exact Values_Set_other _ _ _ _ (fun hc => hpost x (List.mem_cons_self _ _) hc.symm)

theorem makeRequest_sent_eq {α : Type} (lib : Lib) (g : gomono) (method url : String)
    (body : Option String) (headers : List header) (unmarshal : Unmarshal α)
    (target : ResponseTarget α) (req : Request)
    (hsent : req ∈ (makeRequest lib g method url body headers unmarshal target).sent) :
    ∃ req0, NewRequest lib method url body = .ok req0 ∧ req = applyHeaders g headers req0 := by
  unfold makeRequest at hsent
  cases target with
  | value v => simp [ResponseTarget.isPtr] at hsent
  | pointer v =>
    simp only [ResponseTarget.isPtr, ResponseTarget.content] at hsent
    cases hreq : NewRequest lib method url body with
    | error e => simp [hreq] at hsent
    | ok req0 =>
      refine ⟨req0, rfl, ?_⟩
      simp only [hreq] at hsent
      cases hc : g.client with
      | none => simp [hc] at hsent
      | some client =>
        simp only [hc] at hsent
        cases hdo : client.Do (applyHeaders g headers req0) with
        | error e => simpa [hdo] using hsent
        | ok resp =>
          simp only [hdo] at hsent
          cases hb : resp.Body with
          | error e => simpa [hb] using hsent
          | ok b =>
            simp only [hb] at hsent
            by_cases hs : resp.StatusCode = 200
            · rcases hu : unmarshal b v with ⟨w, _ | err⟩ <;>
                simpa [hs, hu] using hsent
            · simpa [hs] using hsent

/-- C2: every request that `makeRequest` hands to the client carries
`mono-sec-key` with the configured secret key, `Content-Type` with
`application/json` and the fixed `X-Client-Lib` marker, each with exactly one
value, whatever headers the caller supplied; every caller-supplied header with
another name carries the value given last in the list for that name. Header names
are compared in canonical form, as `http.Header` stores them. -/
theorem makeRequest_headers {α : Type} (lib : Lib) (g : gomono) (method url : String)
    (body : Option String) (headers : List header) (unmarshal : Unmarshal α)
    (target : ResponseTarget α) (req : Request)
    (hsent : req ∈ (makeRequest lib g method url body headers unmarshal target).sent) :
    req.Header.Values "mono-sec-key" = [g.secretKey] ∧
    req.Header.Values "Content-Type" = ["application/json"] ∧
    req.Header.Values "X-Client-Lib" = ["GoMono | v1 | github.com/jcobhams/gomono"] ∧
    ∀ (pre : List header) (h : header) (post : List header),
      headers = pre ++ h :: post →
      (∀ x ∈ post, CanonicalMIMEHeaderKey x.Key ≠ CanonicalMIMEHeaderKey h.Key) →
      CanonicalMIMEHeaderKey h.Key ≠ CanonicalMIMEHeaderKey "mono-sec-key" →
      CanonicalMIMEHeaderKey h.Key ≠ CanonicalMIMEHeaderKey "Content-Type" →
      CanonicalMIMEHeaderKey h.Key ≠ CanonicalMIMEHeaderKey "X-Client-Lib" →
      req.Header.Values h.Key = [h.Value] := by
  obtain ⟨req0, -, rfl⟩ := makeRequest_sent_eq lib g method url body headers unmarshal target
    req hsent
  refine ⟨?_, ?_, ?_, ?_⟩
  · unfold applyHeaders Request.setHeader
    rw [Values_Set_other _ _ _ _ (by decide), Values_Set_other _ _ _ _ (by decide)]
    exact Values_Set_same _ _ _ _ rfl
  · unfold applyHeaders Request.setHeader
    rw [Values_Set_other _ _ _ _ (by decide)]
    exact Values_Set_same _ _ _ _ rfl
  · unfold applyHeaders Request.setHeader
    exact Values_Set_same _ _ _ _ rfl
  · intro pre h post hsplit hpost h1 h2 h3
    subst hsplit
    unfold applyHeaders
    rw [List.foldl_append, List.foldl_cons]
    unfold Request.setHeader
    rw [Values_Set_other _ _ _ _ h3, Values_Set_other _ _ _ _ h2,
      Values_Set_other _ _ _ _ h1]
    have := foldl_setHeader_Values post
      ((pre.foldl (fun r x => r.setHeader x.Key x.Value) req0).setHeader h.Key h.Value)
      h.Key hpost
    unfold Request.setHeader at this
    rw [this]
    exact Values_Set_same _ _ _ _ rfl

/-- C2, at concrete inputs: with `sampleHeaders` the request sent still has the
configured key and JSON content type, and `X-Trace` has the later value. -/
theorem makeRequest_headers_witness :
    applyHeaders (testClient refuse) sampleHeaders
        ⟨"GET", "http://127.0.0.1:8080/coverage", [], none⟩ ∈
      (makeRequest testLib (testClient refuse) "GET" "http://127.0.0.1:8080/coverage" none
        sampleHeaders readNull (.pointer ([] : List Institution))).sent ∧
    (applyHeaders (testClient refuse) sampleHeaders
        ⟨"GET", "http://127.0.0.1:8080/coverage", [], none⟩).Header
      = [("X-Client-Lib", ["GoMono | v1 | github.com/jcobhams/gomono"]),
         ("Content-Type", ["application/json"]), ("Mono-Sec-Key", ["TEST_SECRET_KEY"]),
         ("X-Trace", ["2"])] ∧
    (applyHeaders (testClient refuse) sampleHeaders
        ⟨"GET", "http://127.0.0.1:8080/coverage", [], none⟩).Header.Values "mono-sec-key"
      = ["TEST_SECRET_KEY"] ∧
    (applyHeaders (testClient refuse) sampleHeaders
        ⟨"GET", "http://127.0.0.1:8080/coverage", [], none⟩).Header.Values "X-TRACE"
      = ["2"] :=
  have hmem : applyHeaders (testClient refuse) sampleHeaders
        ⟨"GET", "http://127.0.0.1:8080/coverage", [], none⟩ ∈
      (makeRequest testLib (testClient refuse) "GET" "http://127.0.0.1:8080/coverage" none
        sampleHeaders readNull (.pointer ([] : List Institution))).sent := by decide
  have H := makeRequest_headers testLib (testClient refuse) "GET"
    "http://127.0.0.1:8080/coverage" none sampleHeaders readNull
    (.pointer ([] : List Institution)) _ hmem
  ⟨hmem, by decide, H.1,
    H.2.2.2 [⟨"MONO-SEC-KEY", "forged"⟩, ⟨"x-trace", "1"⟩, ⟨"content-type", "text/plain"⟩]
      ⟨"X-TRACE", "2"⟩ [] rfl (by decide) (by decide) (by decide) (by decide)⟩

/-! ## Endpoint methods: validation before any request -/

/-- C4: every endpoint method that takes a required identifier, called with
that identifier empty, returns a validation error (an `errors.New` value) and an
empty or nil result, and hands no request to the client, whatever the other
arguments are. -/
theorem empty_identifier_fails (lib : Lib) (g : gomono) :
    ExchangeToken lib g "" = ⟨"", some (.new "gomono: Code cannot be blank"), []⟩ ∧
    Information lib g "" = ⟨none, some (.new "gomono: ID is required"), []⟩ ∧
    (∀ period output : String, Statement lib g "" period output
      = ⟨none, some (.new "gomono: ID is required"), []⟩) ∧
    (∀ jobId : String, PdfStatementJobStatus lib g "" jobId
      = ⟨none, some (.new "gomono: ID is required"), []⟩) ∧
    (∀ id : String, (PdfStatementJobStatus lib g id "").value = none ∧
      (∃ msg, (PdfStatementJobStatus lib g id "").err = some (.new msg)) ∧
      (PdfStatementJobStatus lib g id "").sent = []) ∧
    (∀ (start «end» narration tnxType : String) (paginate : Bool),
      Transactions lib g "" start «end» narration tnxType paginate
        = ⟨none, some (.new "gomono: ID is required"), []⟩) ∧
    CreditTransactions lib g "" = ⟨none, some (.new "gomono: ID is required"), []⟩ ∧
    DebitTransactions lib g "" = ⟨none, some (.new "gomono: ID is required"), []⟩ ∧
    Income lib g "" = ⟨none, some (.new "gomono: ID is required"), []⟩ ∧
    Identity lib g "" = ⟨none, some (.new "gomono: ID is required"), []⟩ ∧
    LookupBVN lib g "" = ⟨none, some (.new "gomono: BVN is required"), []⟩ := by
  refine ⟨rfl, rfl, fun _ _ => rfl, fun _ => rfl, ?_, fun _ _ _ _ _ => rfl, rfl, rfl, rfl,
    rfl, rfl⟩
  intro id
  by_cases hid : id = "" <;> simp [PdfStatementJobStatus, hid]

/-! ## `makeRequest`: outcomes by case -/

theorem NewRequest_ok (lib : Lib) (method url : String) (body : Option String)
    (hm : method ≠ "") (hcheck : lib.checkRequest method url = none) :
    NewRequest lib method url body = .ok ⟨method, url, [], body⟩ := by
  simp [NewRequest, hm, hcheck]

theorem applyHeaders_Method (g : gomono) (headers : List header) (req : Request) :
    (applyHeaders g headers req).Method = req.Method := by
  show (headers.foldl (fun r x => r.setHeader x.Key x.Value) req).Method = req.Method
  have h : ∀ (l : List header) (r : Request),
      (l.foldl (fun r x => r.setHeader x.Key x.Value) r).Method = r.Method := by
    intro l
    induction l with
    | nil => intro r; rfl
    | cons x t ih => intro r; rw [List.foldl_cons, ih]; rfl
  exact h headers req

theorem applyHeaders_URL (g : gomono) (headers : List header) (req : Request) :
    (applyHeaders g headers req).URL = req.URL := by
  show (headers.foldl (fun r x => r.setHeader x.Key x.Value) req).URL = req.URL
  have h : ∀ (l : List header) (r : Request),
      (l.foldl (fun r x => r.setHeader x.Key x.Value) r).URL = r.URL := by
    intro l
    induction l with
    | nil => intro r; rfl
    | cons x t ih => intro r; rw [List.foldl_cons, ih]; rfl
  exact h headers req

theorem makeRequest_decoded {α : Type} (lib : Lib) (g : gomono) (method url : String)
    (body : Option String) (headers : List header) (unmarshal : Unmarshal α) (v w : α)
    (client : HttpClient) (req0 : Request) (b : String)
    (hclient : g.client = some client)
    (hreq : NewRequest lib method url body = .ok req0)
    (hdo : client.Do (applyHeaders g headers req0) = .ok ⟨200, .ok b⟩)
    (hu : unmarshal b v = (w, none)) :
    makeRequest lib g method url body headers unmarshal (.pointer v)
      = ⟨w, none, [applyHeaders g headers req0]⟩ := by
  simp [makeRequest, ResponseTarget.isPtr, ResponseTarget.content, hreq, hclient, hdo, hu]

/-! ## `Statement` -/

/-- C5: for a non-empty id, when the client answers 200 with a body that
decodes, `Statement` with output `pdf` issues one GET and returns a result whose
PDF branch is the decoded record and whose JSON branch is nil; with output `json`
it issues one POST and returns a result whose JSON branch is the decoded
statement and whose PDF branch is nil; with output `""` it returns a result with
both branches nil. -/
theorem Statement_branches (lib : Lib) (g : gomono) (client : HttpClient)
    (id period : String) (hid : id ≠ "") (hclient : g.client = some client) :
    (∀ (b : String) (pdf : StatementResponsePdf),
      lib.checkRequest "GET" (g.apiUrl ++ "/accounts/" ++ id ++ "/statement?"
        ++ (statementParams "pdf" period).Encode) = none →
      (∀ req : Request, req.Method = "GET" →
        req.URL = g.apiUrl ++ "/accounts/" ++ id ++ "/statement?"
          ++ (statementParams "pdf" period).Encode →
        client.Do req = .ok ⟨200, .ok b⟩) →
      lib.unmarshalStatementPdf b StatementResponsePdf.zero = (pdf, none) →
      ∃ req : Request, req.Method = "GET" ∧
        req.URL = g.apiUrl ++ "/accounts/" ++ id ++ "/statement?"
          ++ (statementParams "pdf" period).Encode ∧
        Statement lib g id period "pdf" = ⟨some ⟨none, some pdf⟩, none, [req]⟩) ∧
    (∀ (b : String) (json : StatementResponseJson),
      lib.checkRequest "POST" (g.apiUrl ++ "/accounts/" ++ id ++ "/statement?"
        ++ (statementParams "json" period).Encode) = none →
      (∀ req : Request, req.Method = "POST" →
        req.URL = g.apiUrl ++ "/accounts/" ++ id ++ "/statement?"
          ++ (statementParams "json" period).Encode →
        client.Do req = .ok ⟨200, .ok b⟩) →
      lib.unmarshalStatementJson b StatementResponseJson.zero = (json, none) →
      ∃ req : Request, req.Method = "POST" ∧
        req.URL = g.apiUrl ++ "/accounts/" ++ id ++ "/statement?"
          ++ (statementParams "json" period).Encode ∧
        Statement lib g id period "json" = ⟨some ⟨some json, none⟩, none, [req]⟩) ∧
    Statement lib g id period "" = ⟨some ⟨none, none⟩, none, []⟩ := by
  refine ⟨?_, ?_, ?_⟩
  · intro b pdf hcheck hdo hu
    have hreq := NewRequest_ok lib "GET" _ none (by decide) hcheck
    refine ⟨applyHeaders g [] ⟨"GET", _, [], none⟩, applyHeaders_Method _ _ _,
      applyHeaders_URL _ _ _, ?_⟩
    have hm := makeRequest_decoded lib g "GET" _ none [] lib.unmarshalStatementPdf
      StatementResponsePdf.zero pdf client _ b hclient hreq
      (hdo _ (applyHeaders_Method _ _ _) (applyHeaders_URL _ _ _)) hu
    have hl : ToLower lib "pdf" = "pdf" := rfl
    simp only [Statement, hid, hl, if_false]
    simp [hm, StatementResponse.zero]
  · intro b json hcheck hdo hu
    have hreq := NewRequest_ok lib "POST" _ none (by decide) hcheck
    refine ⟨applyHeaders g [] ⟨"POST", _, [], none⟩, applyHeaders_Method _ _ _,
      applyHeaders_URL _ _ _, ?_⟩
    have hm := makeRequest_decoded lib g "POST" _ none [] lib.unmarshalStatementJson
      StatementResponseJson.zero json client _ b hclient hreq
      (hdo _ (applyHeaders_Method _ _ _) (applyHeaders_URL _ _ _)) hu
    have hl : ToLower lib "json" = "json" := rfl
    simp only [Statement, hid, hl, if_false]
    simp [hm, StatementResponse.zero]
  · have hl : ToLower lib "" = "" := rfl
    simp [Statement, hid, hl, StatementResponse.zero]

/-- C5, at concrete inputs: the PDF body of the tests, a `null` body for the
JSON branch, and an empty output. -/
theorem Statement_branches_witness :
    testAccountId ≠ "" ∧
    (Statement testLib (testClient (respond 200 testPdfBody)) testAccountId "" "pdf").value
      = some ⟨none, some ⟨testJobId, "BUILDING",
          "https://api.withmono.com/statements/pvLhFR89Id2zrnPGJZcM.pdf"⟩⟩ ∧
    (Statement testLib (testClient (respond 200 "null")) testAccountId "" "json").value
      = some ⟨some StatementResponseJson.zero, none⟩ ∧
    Statement testLib (testClient refuse) testAccountId "" "" = ⟨some ⟨none, none⟩, none, []⟩ :=
  have h1 := Statement_branches testLib (testClient (respond 200 testPdfBody))
    (respond 200 testPdfBody) testAccountId "" (by decide) rfl
  have h2 := Statement_branches testLib (testClient (respond 200 "null"))
    (respond 200 "null") testAccountId "" (by decide) rfl
  have h3 := Statement_branches testLib (testClient refuse) refuse testAccountId ""
    (by decide) rfl
  ⟨by decide,
    (match h1.1 testPdfBody ⟨testJobId, "BUILDING",
        "https://api.withmono.com/statements/pvLhFR89Id2zrnPGJZcM.pdf"⟩ rfl
        (fun _ _ _ => rfl) rfl with
      | ⟨_, _, _, h⟩ => congrArg Outcome.value h),
    (match h2.2.1 "null" StatementResponseJson.zero rfl (fun _ _ _ => rfl) rfl with
      | ⟨_, _, _, h⟩ => congrArg Outcome.value h),
    h3.2.2⟩

/-- The lower-cased output decides the whole call. -/
theorem Statement_congr_ToLower (lib : Lib) (g : gomono) (id period o1 o2 : String)
    (h : ToLower lib o1 = ToLower lib o2) :
    Statement lib g id period o1 = Statement lib g id period o2 := by
  simp only [Statement, h]

theorem makeRequest_sent_nil_err {α : Type} (lib : Lib) (g : gomono) (method url : String)
    (body : Option String) (headers : List header) (unmarshal : Unmarshal α) (v : α)
    (hsent : (makeRequest lib g method url body headers unmarshal (.pointer v)).sent = []) :
    (∃ e, (makeRequest lib g method url body headers unmarshal (.pointer v)).err
      = some (.lib e)) ∨
    (makeRequest lib g method url body headers unmarshal (.pointer v)).err
      = some .nilDeref := by
  unfold makeRequest at hsent ⊢
  simp only [ResponseTarget.isPtr, ResponseTarget.content] at hsent ⊢
  cases hreq : NewRequest lib method url body with
  | error e => simp [hreq]
  | ok req0 =>
    simp only [hreq] at hsent ⊢
    cases hc : g.client with
    | none => simp [hc]
    | some client =>
      simp only [hc] at hsent ⊢
      cases hdo : client.Do (applyHeaders g headers req0) with
      | error e => simp [hdo] at hsent
      | ok resp =>
        simp only [hdo] at hsent
        cases hb : resp.Body with
        | error e => simp [hb] at hsent
        | ok b =>
          simp only [hb] at hsent
          by_cases hs : resp.StatusCode = 200
          · rcases hu : unmarshal b v with ⟨w, _ | err⟩ <;> simp [hs, hu] at hsent
          · simp [hs] at hsent

/-- C6: for a non-empty id, `Statement` returns the "only json or pdf output
supported" error with a nil result and no request sent exactly when the
lower-cased output is none of `""`, `pdf`, `json`; two outputs with the same
lower-cased form (such as `PDF` and `pdf`) give the same requests and the same
result, and every request sent is to the URL whose `output` parameter is the
lower-cased value. -/
theorem Statement_output_validation (lib : Lib) (g : gomono) (id period : String)
    (hid : id ≠ "") :
    (∀ output : String,
      Statement lib g id period output
          = ⟨none, some (.new "gomono: only json or pdf output supported"), []⟩ ↔
        (ToLower lib output ≠ "" ∧ ToLower lib output ≠ "pdf" ∧
          ToLower lib output ≠ "json")) ∧
    (∀ o1 o2 : String, ToLower lib o1 = ToLower lib o2 →
      Statement lib g id period o1 = Statement lib g id period o2) ∧
    Statement lib g id period "PDF" = Statement lib g id period "pdf" ∧
    Statement lib g id period "Json" = Statement lib g id period "json" ∧
    (∀ output : String, ∀ req ∈ (Statement lib g id period output).sent,
      req.URL = g.apiUrl ++ "/accounts/" ++ id ++ "/statement?"
        ++ (statementParams (ToLower lib output) period).Encode ∧
      (statementParams (ToLower lib output) period).lookup "output"
        = some [ToLower lib output]) := by
  refine ⟨?_, fun o1 o2 h => Statement_congr_ToLower lib g id period o1 o2 h,
    Statement_congr_ToLower lib g id period _ _ rfl,
    Statement_congr_ToLower lib g id period _ _ rfl, ?_⟩
  · intro output
    constructor
    · intro h
      by_contra hn
      have herr := congrArg Outcome.err h
      have hsent := congrArg Outcome.sent h
      simp only [Statement, hid, hn, if_false] at herr hsent
      by_cases hp : ToLower lib output = "pdf"
      · simp only [hp, if_true] at herr hsent
        cases he : (makeRequest lib g "GET" (g.apiUrl ++ "/accounts/" ++ id ++ "/statement?"
            ++ (statementParams "pdf" period).Encode) none [] lib.unmarshalStatementPdf
            (.pointer StatementResponsePdf.zero)).err with
        | none => simp [he] at herr
        | some e =>
          simp only [he] at herr hsent
          rcases makeRequest_sent_nil_err _ _ _ _ _ _ _ _ hsent with ⟨e2, h2⟩ | h2 <;>
            rw [he] at h2 <;> simp_all
      · by_cases hj : ToLower lib output = "json"
        · simp only [hj, if_true] at herr hsent
          simp only [show ¬ ("json" = "pdf") by decide, if_false] at herr hsent
          cases he : (makeRequest lib g "POST" (g.apiUrl ++ "/accounts/" ++ id
              ++ "/statement?" ++ (statementParams "json" period).Encode) none []
              lib.unmarshalStatementJson (.pointer StatementResponseJson.zero)).err with
          | none => simp [he] at herr
          | some e =>
            simp only [he] at herr hsent
            rcases makeRequest_sent_nil_err _ _ _ _ _ _ _ _ hsent with ⟨e2, h2⟩ | h2 <;>
              rw [he] at h2 <;> simp_all
        · simp [hp, hj] at herr
    · intro h
      simp [Statement, hid, h]
  · intro output req hreq
    by_cases hp : ToLower lib output = "pdf"
    · simp only [Statement, hid, hp, if_false] at hreq
      simp only [show ¬ ("pdf" ≠ "" ∧ "pdf" ≠ "pdf" ∧ "pdf" ≠ "json") by decide, if_false,
        if_true] at hreq
      have hmem : req ∈ (makeRequest lib g "GET" (g.apiUrl ++ "/accounts/" ++ id
          ++ "/statement?" ++ (statementParams "pdf" period).Encode) none []
          lib.unmarshalStatementPdf (.pointer StatementResponsePdf.zero)).sent := by
        revert hreq
        cases (makeRequest lib g "GET" (g.apiUrl ++ "/accounts/" ++ id
          ++ "/statement?" ++ (statementParams "pdf" period).Encode) none []
          lib.unmarshalStatementPdf (.pointer StatementResponsePdf.zero)).err <;>
          exact fun h => h
      obtain ⟨req0, h0, rfl⟩ := makeRequest_sent_eq _ _ _ _ _ _ _ _ _ hmem
      rw [hp, applyHeaders_URL]
      refine ⟨?_, ?_⟩
      · simp only [NewRequest] at h0
        split at h0
        · cases h0
        · cases h0; rfl
      · by_cases hper : period = "" <;> simp [statementParams, Values.Add, hper, List.lookup]
    · by_cases hj : ToLower lib output = "json"
      · simp only [Statement, hid, hj, if_false] at hreq
        simp only [show ¬ ("json" ≠ "" ∧ "json" ≠ "pdf" ∧ "json" ≠ "json") by decide,
          show ¬ ("json" = "pdf") by decide, if_false, if_true] at hreq
        have hmem : req ∈ (makeRequest lib g "POST" (g.apiUrl ++ "/accounts/" ++ id
            ++ "/statement?" ++ (statementParams "json" period).Encode) none []
            lib.unmarshalStatementJson (.pointer StatementResponseJson.zero)).sent := by
          revert hreq
          cases (makeRequest lib g "POST" (g.apiUrl ++ "/accounts/" ++ id
            ++ "/statement?" ++ (statementParams "json" period).Encode) none []
            lib.unmarshalStatementJson (.pointer StatementResponseJson.zero)).err <;>
            exact fun h => h
        obtain ⟨req0, h0, rfl⟩ := makeRequest_sent_eq _ _ _ _ _ _ _ _ _ hmem
        rw [hj, applyHeaders_URL]
        refine ⟨?_, ?_⟩
        · simp only [NewRequest] at h0
          split at h0
          · cases h0
          · cases h0; rfl
        · by_cases hper : period = "" <;>
            simp [statementParams, Values.Add, hper, List.lookup]
      · exfalso
        by_cases he : ToLower lib output = ""
        · simp [Statement, hid, he] at hreq
        · simp [Statement, hid, he, hp, hj] at hreq

/-- C6, at concrete inputs: output `x` is rejected before any request, and
`PDF` is treated as `pdf`. -/
theorem Statement_output_validation_witness :
    testAccountId ≠ "" ∧
    Statement testLib (testClient (respond 200 testPdfBody)) testAccountId "" "x"
      = ⟨none, some (.new "gomono: only json or pdf output supported"), []⟩ ∧
    Statement testLib (testClient (respond 200 testPdfBody)) testAccountId "" "PDF"
      = Statement testLib (testClient (respond 200 testPdfBody)) testAccountId "" "pdf" ∧
    (Statement testLib (testClient (respond 200 testPdfBody)) testAccountId "" "PDF").sent.map
        Request.URL
      = ["http://127.0.0.1:8080/accounts/5fc68b964bdcbe4eb164e852/statement?output=pdf"] :=
  have H := Statement_output_validation testLib (testClient (respond 200 testPdfBody))
    testAccountId "" (by decide)
  ⟨by decide, (H.1 "x").2 (by decide), H.2.2.1, by decide⟩

/-- C7, at the failing input: with a non-empty id and an empty output,
`Statement` builds the endpoint, sends nothing, and returns a nil error together
with a result whose two branches are both nil. -/
theorem Statement_empty_output_neither :
    testAccountId ≠ "" ∧
    (Statement testLib (testClient (respond 200 testPdfBody)) testAccountId "" "").err = none ∧
    ((Statement testLib (testClient (respond 200 testPdfBody)) testAccountId "" "").value.map
      fun r => (r.JSON.isSome, r.PDF.isSome)) = some (false, false) ∧
    (Statement testLib (testClient (respond 200 testPdfBody)) testAccountId "" "").sent = [] := by
  refine ⟨by decide, by decide, by decide, by decide⟩

/-! ## No partial success -/

theorem wrap_nil_iff {α ρ : Type} (r : Outcome α) (f : α → ρ) :
    ((match r.err with
      | some err => (⟨none, some err, r.sent⟩ : Outcome (Option ρ))
      | none => ⟨some (f r.value), none, r.sent⟩).value = none) ↔
    ((match r.err with
      | some err => (⟨none, some err, r.sent⟩ : Outcome (Option ρ))
      | none => ⟨some (f r.value), none, r.sent⟩).err ≠ none) := by
  cases r.err <;> simp

/-- C8: for every endpoint method that returns a pointer, all arguments, every
library and every client, the result is nil exactly when the error is not nil;
and `ExchangeToken` returns the empty string whenever its error is not nil. -/
theorem no_partial_success (lib : Lib) (g : gomono) :
    (∀ id, (Information lib g id).value = none ↔ (Information lib g id).err ≠ none) ∧
    (∀ id period output, (Statement lib g id period output).value = none ↔
      (Statement lib g id period output).err ≠ none) ∧
    (∀ id jobId, (PdfStatementJobStatus lib g id jobId).value = none ↔
      (PdfStatementJobStatus lib g id jobId).err ≠ none) ∧
    (∀ id start «end» narration tnxType paginate,
      (Transactions lib g id start «end» narration tnxType paginate).value = none ↔
      (Transactions lib g id start «end» narration tnxType paginate).err ≠ none) ∧
    (∀ id, (CreditTransactions lib g id).value = none ↔
      (CreditTransactions lib g id).err ≠ none) ∧
    (∀ id, (DebitTransactions lib g id).value = none ↔
      (DebitTransactions lib g id).err ≠ none) ∧
    (∀ id, (Income lib g id).value = none ↔ (Income lib g id).err ≠ none) ∧
    (∀ id, (Identity lib g id).value = none ↔ (Identity lib g id).err ≠ none) ∧
    ((Institutions lib g).value = none ↔ (Institutions lib g).err ≠ none) ∧
    (∀ bvn, (LookupBVN lib g bvn).value = none ↔ (LookupBVN lib g bvn).err ≠ none) ∧
    (∀ code, (ExchangeToken lib g code).err ≠ none → (ExchangeToken lib g code).value = "") := by
  refine ⟨?_, ?_, ?_, ?_, ?_, ?_, ?_, ?_, ?_, ?_, ?_⟩
  · intro id
    unfold Information
    split
    · simp
    · exact wrap_nil_iff _ (fun x => x)
  · intro id period output
    unfold Statement
    split
    · simp
    · dsimp only
      split
      · simp
      · split
        · exact wrap_nil_iff _
            (fun x => (⟨StatementResponse.zero.JSON, some x⟩ : StatementResponse))
        · split
          · exact wrap_nil_iff _
              (fun x => (⟨some x, StatementResponse.zero.PDF⟩ : StatementResponse))
          · simp
  · intro id jobId
    unfold PdfStatementJobStatus
    split
    · simp
    · split
      · simp
      · exact wrap_nil_iff _ (fun x => x)
  · intro id start e narration tnxType paginate
    unfold Transactions
    split
    · simp
    · exact wrap_nil_iff _ (fun x => x)
  · intro id
    unfold CreditTransactions transactionByType
    split
    · simp
    · exact wrap_nil_iff _ (fun x => x)
  · intro id
    unfold DebitTransactions transactionByType
    split
    · simp
    · exact wrap_nil_iff _ (fun x => x)
  · intro id
    unfold Income
    split
    · simp
    · exact wrap_nil_iff _ (fun x => x)
  · intro id
    unfold Identity
    split
    · simp
    · exact wrap_nil_iff _ (fun x => x)
  · unfold Institutions
    exact wrap_nil_iff _ (fun x => (⟨x⟩ : InstitutionsResponse))
  · intro bvn
    unfold LookupBVN
    split
    · simp
    · split
      · simp
      · exact wrap_nil_iff _ (fun x => x)
  · intro code
    unfold ExchangeToken
    split
    · simp
    · split
      · simp
      · dsimp only
        split <;> simp

/-! ## One exchange per call -/

theorem makeRequest_oneExchange {α : Type} (lib : Lib) (g : gomono) (method url : String)
    (body : Option String) (headers : List header) (unmarshal : Unmarshal α) (v : α)
    (client : HttpClient) (hclient : g.client = some client)
    (hm : method ≠ "") (hcheck : lib.checkRequest method url = none) :
    oneExchange client (makeRequest lib g method url body headers unmarshal (.pointer v)) := by
  have hreq := NewRequest_ok lib method url body hm hcheck
  refine ⟨applyHeaders g headers ⟨method, url, [], body⟩, ?_, ?_⟩
  · simp only [makeRequest, ResponseTarget.isPtr, ResponseTarget.content, hreq, hclient]
    cases hdo : client.Do (applyHeaders g headers ⟨method, url, [], body⟩) with
    | error e => simp
    | ok resp =>
      cases hb : resp.Body with
      | error e => simp [hb]
      | ok b =>
        by_cases hs : resp.StatusCode = 200
        · rcases hu : unmarshal b v with ⟨w, _ | err⟩ <;> simp [hb, hs, hu]
        · simp [hb, hs]
  · intro e hdo
    simp [makeRequest, ResponseTarget.isPtr, ResponseTarget.content, hreq, hclient, hdo]

theorem wrap_oneExchange {α ρ : Type} (client : HttpClient) (r : Outcome α) (zero : ρ)
    (f : α → ρ) (h : oneExchange client r) :
    oneExchange client (match r.err with
      | some err => (⟨zero, some err, r.sent⟩ : Outcome ρ)
      | none => ⟨f r.value, none, r.sent⟩) := by
  obtain ⟨req, hsent, herr⟩ := h
  refine ⟨req, ?_, ?_⟩
  · cases r.err <;> exact hsent
  · intro e hdo
    have := herr e hdo
    simp [this]

theorem makeRequest_noExchange {α : Type} (lib : Lib) (g : gomono) (method url : String)
    (body : Option String) (headers : List header) (unmarshal : Unmarshal α) (v : α)
    (e : LibError) (hm : method ≠ "") (hcheck : lib.checkRequest method url = some e) :
    noExchange e (makeRequest lib g method url body headers unmarshal (.pointer v)) := by
  constructor <;>
    simp [makeRequest, ResponseTarget.isPtr, ResponseTarget.content, NewRequest, hm, hcheck]

theorem wrap_noExchange {α ρ : Type} (e : LibError) (r : Outcome α) (zero : ρ)
    (f : α → ρ) (h : noExchange e r) :
    noExchange e (match r.err with
      | some err => (⟨zero, some err, r.sent⟩ : Outcome ρ)
      | none => ⟨f r.value, none, r.sent⟩) := by
  obtain ⟨herr, hsent⟩ := h
  constructor
  · simp [herr]
  · cases r.err <;> exact hsent

/-- C9, as the code has it: for a call of an endpoint method whose arguments
pass validation, if the payload (where there is one) is marshalled and
`http.NewRequest` accepts the request, exactly one request is handed to the
configured client, whether the client succeeds or fails, and a failure of the
client is the error returned; if `json.Marshal` or `http.NewRequest` fails, that
error is returned and no request is handed to the client. For `Statement` this
is stated for a lower-cased output of `pdf` or `json`. -/
theorem one_exchange_per_call (lib : Lib) (g : gomono) (client : HttpClient)
    (hclient : g.client = some client) :
    (∀ code, code ≠ "" →
      (∀ e, lib.jsonMarshal [("code", code)] = .error e →
        noExchange e (ExchangeToken lib g code)) ∧
      (∀ p, lib.jsonMarshal [("code", code)] = .ok p →
        (lib.checkRequest "POST" (g.apiUrl ++ "/account/auth") = none →
          oneExchange client (ExchangeToken lib g code)) ∧
        (∀ e, lib.checkRequest "POST" (g.apiUrl ++ "/account/auth") = some e →
          noExchange e (ExchangeToken lib g code)))) ∧
    (∀ id, id ≠ "" →
      (lib.checkRequest "POST" (g.apiUrl ++ "/accounts/" ++ id) = none →
        oneExchange client (Information lib g id)) ∧
      (∀ e, lib.checkRequest "POST" (g.apiUrl ++ "/accounts/" ++ id) = some e →
        noExchange e (Information lib g id))) ∧
    (∀ id period output, id ≠ "" → ToLower lib output = "pdf" →
      (lib.checkRequest "GET" (g.apiUrl ++ "/accounts/" ++ id ++ "/statement?"
          ++ (statementParams "pdf" period).Encode) = none →
        oneExchange client (Statement lib g id period output)) ∧
      (∀ e, lib.checkRequest "GET" (g.apiUrl ++ "/accounts/" ++ id ++ "/statement?"
          ++ (statementParams "pdf" period).Encode) = some e →
        noExchange e (Statement lib g id period output))) ∧
    (∀ id period output, id ≠ "" → ToLower lib output = "json" →
      (lib.checkRequest "POST" (g.apiUrl ++ "/accounts/" ++ id ++ "/statement?"
          ++ (statementParams "json" period).Encode) = none →
        oneExchange client (Statement lib g id period output)) ∧
      (∀ e, lib.checkRequest "POST" (g.apiUrl ++ "/accounts/" ++ id ++ "/statement?"
          ++ (statementParams "json" period).Encode) = some e →
        noExchange e (Statement lib g id period output))) ∧
    (∀ id jobId, id ≠ "" → jobId ≠ "" →
      (lib.checkRequest "GET"
          (g.apiUrl ++ "/accounts/" ++ id ++ "/statement/jobs/" ++ jobId ++ "?") = none →
        oneExchange client (PdfStatementJobStatus lib g id jobId)) ∧
      (∀ e, lib.checkRequest "GET"
          (g.apiUrl ++ "/accounts/" ++ id ++ "/statement/jobs/" ++ jobId ++ "?") = some e →
        noExchange e (PdfStatementJobStatus lib g id jobId))) ∧
    (∀ id start «end» narration tnxType paginate, id ≠ "" →
      (lib.checkRequest "GET" (g.apiUrl ++ "/accounts/" ++ id ++ "/transactions?"
          ++ (transactionsParams start «end» narration tnxType paginate).Encode) = none →
        oneExchange client (Transactions lib g id start «end» narration tnxType paginate)) ∧
      (∀ e, lib.checkRequest "GET" (g.apiUrl ++ "/accounts/" ++ id ++ "/transactions?"
          ++ (transactionsParams start «end» narration tnxType paginate).Encode) = some e →
        noExchange e (Transactions lib g id start «end» narration tnxType paginate))) ∧
    (∀ id, id ≠ "" →
      (lib.checkRequest "GET" (g.apiUrl ++ "/accounts/" ++ id ++ "/" ++ "credit") = none →
        oneExchange client (CreditTransactions lib g id)) ∧
      (∀ e, lib.checkRequest "GET" (g.apiUrl ++ "/accounts/" ++ id ++ "/" ++ "credit")
          = some e →
        noExchange e (CreditTransactions lib g id))) ∧
    (∀ id, id ≠ "" →
      (lib.checkRequest "GET" (g.apiUrl ++ "/accounts/" ++ id ++ "/" ++ "debit") = none →
        oneExchange client (DebitTransactions lib g id)) ∧
      (∀ e, lib.checkRequest "GET" (g.apiUrl ++ "/accounts/" ++ id ++ "/" ++ "debit")
          = some e →
        noExchange e (DebitTransactions lib g id))) ∧
    (∀ id, id ≠ "" →
      (lib.checkRequest "GET" (g.apiUrl ++ "/accounts/" ++ id ++ "/income") = none →
        oneExchange client (Income lib g id)) ∧
      (∀ e, lib.checkRequest "GET" (g.apiUrl ++ "/accounts/" ++ id ++ "/income") = some e →
        noExchange e (Income lib g id))) ∧
    (∀ id, id ≠ "" →
      (lib.checkRequest "GET" (g.apiUrl ++ "/accounts/" ++ id ++ "/identity") = none →
        oneExchange client (Identity lib g id)) ∧
      (∀ e, lib.checkRequest "GET" (g.apiUrl ++ "/accounts/" ++ id ++ "/identity") = some e →
        noExchange e (Identity lib g id))) ∧
    ((lib.checkRequest "GET" (g.apiUrl ++ "/coverage") = none →
        oneExchange client (Institutions lib g)) ∧
      (∀ e, lib.checkRequest "GET" (g.apiUrl ++ "/coverage") = some e →
        noExchange e (Institutions lib g))) ∧
    (∀ bvn, bvn ≠ "" →
      (∀ e, lib.jsonMarshal [("bvn", bvn)] = .error e →
        noExchange e (LookupBVN lib g bvn)) ∧
      (∀ p, lib.jsonMarshal [("bvn", bvn)] = .ok p →
        (lib.checkRequest "POST" (g.apiUrl ++ "/v1/lookup/bvn/identity") = none →
          oneExchange client (LookupBVN lib g bvn)) ∧
        (∀ e, lib.checkRequest "POST" (g.apiUrl ++ "/v1/lookup/bvn/identity") = some e →
          noExchange e (LookupBVN lib g bvn)))) := by
  refine ⟨?_, ?_, ?_, ?_, ?_, ?_, ?_, ?_, ?_, ?_, ?_, ?_⟩
  · intro code hcode
    refine ⟨?_, ?_⟩
    · intro e he
      constructor <;> simp [ExchangeToken, hcode, preparePayload, he]
    · intro p hp
      refine ⟨?_, ?_⟩
      · intro hcheck
        simp only [ExchangeToken, hcode, preparePayload, hp, if_false]
        exact wrap_oneExchange client _ "" (fun m => StringMap.index m "id")
          (makeRequest_oneExchange lib g _ _ _ _ _ _ client hclient (by decide) hcheck)
      · intro e hcheck
        simp only [ExchangeToken, hcode, preparePayload, hp, if_false]
        exact wrap_noExchange e _ "" (fun m => StringMap.index m "id")
          (makeRequest_noExchange lib g _ _ _ _ _ _ e (by decide) hcheck)
  · intro id hid
    refine ⟨?_, ?_⟩
    · intro hcheck
      simp only [Information, hid, if_false]
      exact wrap_oneExchange client _ none some
        (makeRequest_oneExchange lib g _ _ _ _ _ _ client hclient (by decide) hcheck)
    · intro e hcheck
      simp only [Information, hid, if_false]
      exact wrap_noExchange e _ none some
        (makeRequest_noExchange lib g _ _ _ _ _ _ e (by decide) hcheck)
  · intro id period output hid hout
    refine ⟨?_, ?_⟩
    · intro hcheck
      simp only [Statement, hid, hout, if_false]
      simp only [show ¬ ("pdf" ≠ "" ∧ "pdf" ≠ "pdf" ∧ "pdf" ≠ "json") by decide, if_false,
        if_true]
      exact wrap_oneExchange client _ none
        (fun x => some (⟨StatementResponse.zero.JSON, some x⟩ : StatementResponse))
        (makeRequest_oneExchange lib g _ _ _ _ _ _ client hclient (by decide) hcheck)
    · intro e hcheck
      simp only [Statement, hid, hout, if_false]
      simp only [show ¬ ("pdf" ≠ "" ∧ "pdf" ≠ "pdf" ∧ "pdf" ≠ "json") by decide, if_false,
        if_true]
      exact wrap_noExchange e _ none
        (fun x => some (⟨StatementResponse.zero.JSON, some x⟩ : StatementResponse))
        (makeRequest_noExchange lib g _ _ _ _ _ _ e (by decide) hcheck)
  · intro id period output hid hout
    refine ⟨?_, ?_⟩
    · intro hcheck
      simp only [Statement, hid, hout, if_false]
      simp only [show ¬ ("json" ≠ "" ∧ "json" ≠ "pdf" ∧ "json" ≠ "json") by decide,
        show ¬ ("json" = "pdf") by decide, if_false, if_true]
      exact wrap_oneExchange client _ none
        (fun x => some (⟨some x, StatementResponse.zero.PDF⟩ : StatementResponse))
        (makeRequest_oneExchange lib g _ _ _ _ _ _ client hclient (by decide) hcheck)
    · intro e hcheck
      simp only [Statement, hid, hout, if_false]
      simp only [show ¬ ("json" ≠ "" ∧ "json" ≠ "pdf" ∧ "json" ≠ "json") by decide,
        show ¬ ("json" = "pdf") by decide, if_false, if_true]
      exact wrap_noExchange e _ none
        (fun x => some (⟨some x, StatementResponse.zero.PDF⟩ : StatementResponse))
        (makeRequest_noExchange lib g _ _ _ _ _ _ e (by decide) hcheck)
  · intro id jobId hid hjob
    refine ⟨?_, ?_⟩
    · intro hcheck
      simp only [PdfStatementJobStatus, hid, hjob, if_false]
      exact wrap_oneExchange client _ none some
        (makeRequest_oneExchange lib g _ _ _ _ _ _ client hclient (by decide) hcheck)
    · intro e hcheck
      simp only [PdfStatementJobStatus, hid, hjob, if_false]
      exact wrap_noExchange e _ none some
        (makeRequest_noExchange lib g _ _ _ _ _ _ e (by decide) hcheck)
  · intro id start e0 narration tnxType paginate hid
    refine ⟨?_, ?_⟩
    · intro hcheck
      simp only [Transactions, hid, if_false]
      exact wrap_oneExchange client _ none some
        (makeRequest_oneExchange lib g _ _ _ _ _ _ client hclient (by decide) hcheck)
    · intro e hcheck
      simp only [Transactions, hid, if_false]
      exact wrap_noExchange e _ none some
        (makeRequest_noExchange lib g _ _ _ _ _ _ e (by decide) hcheck)
  · intro id hid
    refine ⟨?_, ?_⟩
    · intro hcheck
      simp only [CreditTransactions, transactionByType, hid, if_false]
      exact wrap_oneExchange client _ none some
        (makeRequest_oneExchange lib g _ _ _ _ _ _ client hclient (by decide) hcheck)
    · intro e hcheck
      simp only [CreditTransactions, transactionByType, hid, if_false]
      exact wrap_noExchange e _ none some
        (makeRequest_noExchange lib g _ _ _ _ _ _ e (by decide) hcheck)
  · intro id hid
    refine ⟨?_, ?_⟩
    · intro hcheck
      simp only [DebitTransactions, transactionByType, hid, if_false]
      exact wrap_oneExchange client _ none some
        (makeRequest_oneExchange lib g _ _ _ _ _ _ client hclient (by decide) hcheck)
    · intro e hcheck
      simp only [DebitTransactions, transactionByType, hid, if_false]
      exact wrap_noExchange e _ none some
        (makeRequest_noExchange lib g _ _ _ _ _ _ e (by decide) hcheck)
  · intro id hid
    refine ⟨?_, ?_⟩
    · intro hcheck
      simp only [Income, hid, if_false]
      exact wrap_oneExchange client _ none some
        (makeRequest_oneExchange lib g _ _ _ _ _ _ client hclient (by decide) hcheck)
    · intro e hcheck
      simp only [Income, hid, if_false]
      exact wrap_noExchange e _ none some
        (makeRequest_noExchange lib g _ _ _ _ _ _ e (by decide) hcheck)
  · intro id hid
    refine ⟨?_, ?_⟩
    · intro hcheck
      simp only [Identity, hid, if_false]
      exact wrap_oneExchange client _ none some
        (makeRequest_oneExchange lib g _ _ _ _ _ _ client hclient (by decide) hcheck)
    · intro e hcheck
      simp only [Identity, hid, if_false]
      exact wrap_noExchange e _ none some
        (makeRequest_noExchange lib g _ _ _ _ _ _ e (by decide) hcheck)
  · refine ⟨?_, ?_⟩
    · intro hcheck
      simp only [Institutions]
      exact wrap_oneExchange client _ none (fun x => some (⟨x⟩ : InstitutionsResponse))
        (makeRequest_oneExchange lib g _ _ _ _ _ _ client hclient (by decide) hcheck)
    · intro e hcheck
      simp only [Institutions]
      exact wrap_noExchange e _ none (fun x => some (⟨x⟩ : InstitutionsResponse))
        (makeRequest_noExchange lib g _ _ _ _ _ _ e (by decide) hcheck)
  · intro bvn hbvn
    refine ⟨?_, ?_⟩
    · intro e he
      constructor <;> simp [LookupBVN, hbvn, preparePayload, he]
    · intro p hp
      refine ⟨?_, ?_⟩
      · intro hcheck
        simp only [LookupBVN, hbvn, preparePayload, hp, if_false]
        exact wrap_oneExchange client _ none some
          (makeRequest_oneExchange lib g _ _ _ _ _ _ client hclient (by decide) hcheck)
      · intro e hcheck
        simp only [LookupBVN, hbvn, preparePayload, hp, if_false]
        exact wrap_noExchange e _ none some
          (makeRequest_noExchange lib g _ _ _ _ _ _ e (by decide) hcheck)

/-- C9, at concrete inputs: against a client that refuses every exchange,
`Information` and `ExchangeToken` each hand over one request and return the
refusal; with an id that `http.NewRequest` rejects, `Information` returns that
error and hands over nothing. -/
theorem one_exchange_per_call_witness :
    (testClient refuse).client = some refuse ∧
    oneExchange refuse (Information testLib (testClient refuse) testAccountId) ∧
    oneExchange refuse (ExchangeToken testLib (testClient refuse) "TEST_MONO_CONNECT_CODE") ∧
    noExchange ⟨"net/url: invalid control character in URL"⟩
      (Information testLib (testClient refuse) "a\nb") ∧
    (Information testLib (testClient refuse) testAccountId).sent.length = 1 ∧
    (Information testLib (testClient refuse) testAccountId).err
      = some (.lib ⟨"dial tcp: connection refused"⟩) :=
  have H := one_exchange_per_call testLib (testClient refuse) refuse rfl
  ⟨rfl, (H.2.1 testAccountId (by decide)).1 rfl,
    ((H.1 "TEST_MONO_CONNECT_CODE" (by decide)).2 _ rfl).1 rfl,
    (H.2.1 "a\nb" (by decide)).2 _ rfl, by decide, by decide⟩

/-- C9 as stated fails: with a non-empty id and an empty output `Statement`
succeeds without handing any request to the client; and `Information` with an id
that holds a line feed passes validation and returns the error of
`http.NewRequest` without handing any request to the client. -/
theorem one_exchange_counterexample :
    (testAccountId ≠ "" ∧
      (Statement testLib (testClient (respond 200 "null")) testAccountId "" "").err = none ∧
      (Statement testLib (testClient (respond 200 "null")) testAccountId "" "").sent = []) ∧
    ("a\nb" ≠ "" ∧
      (Information testLib (testClient (respond 200 "null")) "a\nb").err ≠ none ∧
      (Information testLib (testClient (respond 200 "null")) "a\nb").sent = []) := by
  refine ⟨⟨by decide, by decide, by decide⟩, ⟨by decide, by decide, by decide⟩⟩

/-! ## The decoder of `testLib` on plain strings -/

theorem readString_quote (rest : List Char) : readString ('"' :: rest) = some ([], rest) := by
  cases rest <;> rfl

theorem readString_cons_plain (c : Char) (cs : List Char) (hc : plainChar c = true) :
    readString (c :: cs)
      = match readString cs with
        | some (str, rest) => some (c :: str, rest)
        | none => none := by
  simp only [plainChar, Bool.and_eq_true, bne_iff_ne, ne_eq, decide_eq_true_eq] at hc
  obtain ⟨⟨h1, h2⟩, h3⟩ := hc
  have h4 : ¬ c.toNat < 32 := by omega
  cases cs <;> simp [readString, h1, h2, h4]

theorem readString_plain (X rest : List Char) (hX : ∀ c ∈ X, plainChar c = true) :
    readString (X ++ '"' :: rest) = some (X, rest) := by
  induction X with
  | nil => exact readString_quote rest
  | cons c t ih =>
    rw [List.cons_append, readString_cons_plain c _ (hX c (List.mem_cons_self _ _)),
      ih (fun x hx => hX x (List.mem_cons_of_mem _ hx))]

theorem readStringMap_plain (X : String) (hX : ∀ c ∈ X.toList, plainChar c = true) :
    readStringMap ("\x7b\"id\":\"" ++ X ++ "\"\x7d") [] = ([("id", X)], none) := by
  have hb : ("\x7b\"id\":\"" ++ X ++ "\"\x7d").toList
      = '{' :: '"' :: 'i' :: 'd' :: '"' :: ':' :: '"' :: (X.toList ++ '"' :: ['}']) := by
    simp [String.toList, String.data_append]
  obtain ⟨n, hn⟩ : ∃ n, ("\x7b\"id\":\"" ++ X ++ "\"\x7d").length = n + 1 :=
    ⟨X.length + 8, by
      have h1 : "\x7b\"id\":\"".length = 7 := rfl
      have h2 : "\"\x7d".length = 2 := rfl
      rw [String.length_append, String.length_append, h1, h2]
      omega⟩
  have hid : readString ('i' :: 'd' :: '"' :: ':' :: '"' :: (X.toList ++ '"' :: ['}']))
      = some (['i', 'd'], ':' :: '"' :: (X.toList ++ '"' :: ['}'])) :=
    readString_plain ['i', 'd'] _ (by simp [plainChar])
  have hval := readString_plain X.toList ['}'] hX
  have hobj : readObject ("\x7b\"id\":\"" ++ X ++ "\"\x7d") = some [("id", X)] := by
    rw [readObject, hb, hn]
    show readMembers (n + 1) []
      ('"' :: 'i' :: 'd' :: '"' :: ':' :: '"' :: (X.toList ++ '"' :: ['}'])) = _
    rw [readMembers]
    show (match readString ('i' :: 'd' :: '"' :: ':' :: '"' :: (X.toList ++ '"' :: ['}']))
      with
      | none => none
      | some (key, cs2) => _) = _
    rw [hid]
    show (match readString (X.toList ++ '"' :: ['}']) with
      | none => none
      | some (val, cs5) => _) = _
    rw [hval]
    rfl
  simp [readStringMap, hobj]

/-! ## `ExchangeToken` -/

/-- C10, as the code has it: for a non-empty code and a string `X`, when the
client answers the POST to `{base}/account/auth` with status 200 and the body
`{"id":"X"}`: if `json.Unmarshal` reads that body as a map holding `X` under
`id`, `ExchangeToken` returns `X` and a nil error, having sent that one POST;
and with the decoder `readStringMap` this is so for every `X` without double
quote, backslash and control character. -/
theorem ExchangeToken_returns_id (lib : Lib) (g : gomono) (client : HttpClient)
    (code X p : String)
    (hcode : code ≠ "") (hclient : g.client = some client)
    (hp : lib.jsonMarshal [("code", code)] = .ok p)
    (hcheck : lib.checkRequest "POST" (g.apiUrl ++ "/account/auth") = none)
    (hdo : ∀ req : Request, req.Method = "POST" → req.URL = g.apiUrl ++ "/account/auth" →
      client.Do req = .ok ⟨200, .ok ("\x7b\"id\":\"" ++ X ++ "\"\x7d")⟩) :
    (∀ m : StringMap,
      lib.unmarshalMap ("\x7b\"id\":\"" ++ X ++ "\"\x7d") [] = (m, none) →
      m.index "id" = X →
      (ExchangeToken lib g code).value = X ∧ (ExchangeToken lib g code).err = none ∧
      ∃ req : Request, req.Method = "POST" ∧ req.URL = g.apiUrl ++ "/account/auth" ∧
        req.Body = some p ∧ (ExchangeToken lib g code).sent = [req]) ∧
    (lib.unmarshalMap = readStringMap → (∀ c ∈ X.toList, plainChar c = true) →
      (ExchangeToken lib g code).value = X ∧ (ExchangeToken lib g code).err = none) := by
  have hreq := NewRequest_ok lib "POST" (g.apiUrl ++ "/account/auth") (some p) (by decide)
    hcheck
  have main : ∀ m : StringMap,
      lib.unmarshalMap ("\x7b\"id\":\"" ++ X ++ "\"\x7d") [] = (m, none) →
      m.index "id" = X →
      (ExchangeToken lib g code).value = X ∧ (ExchangeToken lib g code).err = none ∧
      ∃ req : Request, req.Method = "POST" ∧ req.URL = g.apiUrl ++ "/account/auth" ∧
        req.Body = some p ∧ (ExchangeToken lib g code).sent = [req] := by
    intro m hjson hid
    have hm := makeRequest_decoded lib g "POST" _ (some p) [] lib.unmarshalMap [] m client
      _ _ hclient hreq (hdo _ (applyHeaders_Method _ _ _) (applyHeaders_URL _ _ _)) hjson
    refine ⟨?_, ?_, applyHeaders g [] ⟨"POST", g.apiUrl ++ "/account/auth", [], some p⟩,
      applyHeaders_Method _ _ _, applyHeaders_URL _ _ _, rfl, ?_⟩ <;>
      simp [ExchangeToken, hcode, preparePayload, hp, hm, hid]
  refine ⟨main, fun hl hX => ?_⟩
  have h := main [("id", X)] (by rw [hl]; exact readStringMap_plain X hX)
    (by simp [StringMap.index, List.lookup])
  exact ⟨h.1, h.2.1⟩

/-- C10, at concrete inputs: the connect code and account id of the tests. -/
theorem ExchangeToken_returns_id_witness :
    "TEST_MONO_CONNECT_CODE" ≠ "" ∧
    readStringMap "\x7b\"id\":\"5fc68b964bdcbe4eb164e852\"\x7d" []
      = ([("id", "5fc68b964bdcbe4eb164e852")], none) ∧
    (∀ c ∈ "5fc68b964bdcbe4eb164e852".toList, plainChar c = true) ∧
    (ExchangeToken testLib
      (testClient (respond 200 "\x7b\"id\":\"5fc68b964bdcbe4eb164e852\"\x7d"))
      "TEST_MONO_CONNECT_CODE").value = "5fc68b964bdcbe4eb164e852" ∧
    (ExchangeToken testLib
      (testClient (respond 200 "\x7b\"id\":\"5fc68b964bdcbe4eb164e852\"\x7d"))
      "TEST_MONO_CONNECT_CODE").err = none :=
  have H := ExchangeToken_returns_id testLib
    (testClient (respond 200 "\x7b\"id\":\"5fc68b964bdcbe4eb164e852\"\x7d"))
    (respond 200 "\x7b\"id\":\"5fc68b964bdcbe4eb164e852\"\x7d")
    "TEST_MONO_CONNECT_CODE" "5fc68b964bdcbe4eb164e852" _
    (by decide) rfl rfl rfl (fun _ _ _ => rfl)
  ⟨by decide, rfl, by simp [plainChar],
    (H.1 [("id", "5fc68b964bdcbe4eb164e852")] rfl rfl).1,
    (H.2 rfl (by simp [plainChar])).2⟩

/-- C10 as stated fails: for `X = a"b` the body `{"id":"a"b"}` is not JSON, and
`ExchangeToken` returns the empty string and the decoding error; for `X = a\b`
the body `{"id":"a\b"}` decodes to `a` followed by a backspace, and
`ExchangeToken` returns that string, not `X`. -/
theorem ExchangeToken_returns_id_counterexample :
    "TEST_MONO_CONNECT_CODE" ≠ "" ∧
    ("\x7b\"id\":\"" ++ "a\"b" ++ "\"\x7d" = "\x7b\"id\":\"a\"b\"\x7d" ∧
      (ExchangeToken testLib (testClient (respond 200 ("\x7b\"id\":\"" ++ "a\"b" ++ "\"\x7d")))
        "TEST_MONO_CONNECT_CODE").value = "" ∧
      (ExchangeToken testLib (testClient (respond 200 ("\x7b\"id\":\"" ++ "a\"b" ++ "\"\x7d")))
        "TEST_MONO_CONNECT_CODE").err ≠ none) ∧
    ((ExchangeToken testLib (testClient (respond 200 ("\x7b\"id\":\"" ++ "a\\b" ++ "\"\x7d")))
        "TEST_MONO_CONNECT_CODE").value = String.mk ['a', Char.ofNat 8] ∧
      (ExchangeToken testLib (testClient (respond 200 ("\x7b\"id\":\"" ++ "a\\b" ++ "\"\x7d")))
        "TEST_MONO_CONNECT_CODE").value ≠ "a\\b" ∧
      (ExchangeToken testLib (testClient (respond 200 ("\x7b\"id\":\"" ++ "a\\b" ++ "\"\x7d")))
        "TEST_MONO_CONNECT_CODE").err = none) := by
  refine ⟨by decide, ⟨by decide, by decide, by decide⟩, ⟨by decide, by decide, by decide⟩⟩

/-! ## Escaping and the query of a URL -/

theorem utf8Bytes_lt (c : Char) : ∀ b ∈ utf8Bytes c, b < 256 := by
  have hc : c.toNat < 1114112 := by
    have h := c.valid
    simp only [UInt32.isValidChar, Nat.isValidChar] at h
    show c.val.toNat < 1114112
    omega
  intro b hb
  simp only [utf8Bytes] at hb
  split_ifs at hb <;> simp at hb <;> omega

theorem bytes_lt (s : String) : ∀ b ∈ bytes s, b < 256 := by
  intro b hb
  simp only [bytes, List.mem_flatMap] at hb
  obtain ⟨c, -, hc⟩ := hb
  exact utf8Bytes_lt c b hc

theorem escapeRoundTrips_all : ∀ b < 256, escapeRoundTrips b = true := by decide

theorem QueryUnescape_plus (rest : List Char) :
    QueryUnescape ('+' :: rest) = (QueryUnescape rest).map fun bs => 32 :: bs := by
  rcases rest with _ | ⟨a, _ | ⟨b, t⟩⟩ <;> rfl

theorem QueryUnescape_percent (h1 h2 : Char) (rest : List Char) :
    QueryUnescape ('%' :: h1 :: h2 :: rest)
      = if ishex h1 && ishex h2 then
          (QueryUnescape rest).map fun bs => (unhex h1 * 16 + unhex h2) :: bs
        else none := by
  rfl

theorem QueryUnescape_other (c : Char) (rest : List Char) (h1 : c ≠ '%') (h2 : c ≠ '+') :
    QueryUnescape (c :: rest) = (QueryUnescape rest).map fun bs => utf8Bytes c ++ bs := by
  rcases rest with _ | ⟨a, _ | ⟨b, t⟩⟩ <;> simp [QueryUnescape, h1, h2]

theorem QueryUnescape_escapeByte (b : Nat) (hb : b < 256) (rest : List Char) :
    QueryUnescape (escapeByte b ++ rest) = (QueryUnescape rest).map fun bs => b :: bs := by
  have h := escapeRoundTrips_all b hb
  simp only [escapeRoundTrips, Bool.and_eq_true] at h
  obtain ⟨-, h⟩ := h
  split at h
  · rename_i c hc
    rw [hc]
    simp only [Bool.or_eq_true, Bool.and_eq_true, beq_iff_eq, bne_iff_ne, ne_eq] at h
    rcases h with ⟨rfl, rfl⟩ | ⟨⟨h1, h2⟩, h3⟩
    · exact QueryUnescape_plus rest
    · rw [List.singleton_append, QueryUnescape_other c rest h1 h2, h3]
      rfl
  · rename_i c h1 h2 hc
    rw [hc]
    simp only [Bool.and_eq_true, beq_iff_eq] at h
    obtain ⟨⟨⟨rfl, hh1⟩, hh2⟩, hv⟩ := h
    show QueryUnescape ('%' :: h1 :: h2 :: rest) = _
    rw [QueryUnescape_percent, hh1, hh2, hv]
    rfl
  · simp at h

theorem QueryUnescape_escape (bs : List Nat) (hbs : ∀ b ∈ bs, b < 256) (rest : List Char) :
    QueryUnescape (bs.flatMap escapeByte ++ rest)
      = (QueryUnescape rest).map fun r => bs ++ r := by
  induction bs with
  | nil => simp
  | cons b t ih =>
    rw [List.flatMap_cons, List.append_assoc,
      QueryUnescape_escapeByte b (hbs b (List.mem_cons_self _ _)),
      ih (fun x hx => hbs x (List.mem_cons_of_mem _ hx))]
    cases QueryUnescape rest <;> simp

theorem QueryUnescape_QueryEscape (s : String) :
    QueryUnescape (QueryEscape s).toList = some (bytes s) := by
  have h := QueryUnescape_escape (bytes s) (bytes_lt s) []
  simpa [QueryEscape, QueryUnescape] using h

theorem QueryEscape_safe (s : String) (c : Char) (hc : c ∈ (QueryEscape s).toList) :
    c ≠ '&' ∧ c ≠ '=' ∧ c ≠ ';' ∧ c ≠ '#' ∧ c ≠ '?' := by
  simp only [QueryEscape, String.toList, List.mem_flatMap] at hc
  obtain ⟨b, hb, hcb⟩ := hc
  have h := escapeRoundTrips_all b (bytes_lt s b hb)
  simp only [escapeRoundTrips, Bool.and_eq_true, List.all_eq_true] at h
  have := h.1 c hcb
  simp only [Bool.and_eq_true, bne_iff_ne, ne_eq] at this
  tauto

theorem cut_append (sep : Char) (p rest : List Char) (hp : sep ∉ p) :
    cut sep (p ++ sep :: rest) = (p, some rest) := by
  induction p with
  | nil => simp [cut]
  | cons c t ih =>
    have hc : c ≠ sep := fun h => hp (h ▸ List.mem_cons_self _ _)
    have ht : sep ∉ t := fun h => hp (List.mem_cons_of_mem _ h)
    simp [cut, hc, ih ht]

theorem cut_none (sep : Char) (p : List Char) (hp : sep ∉ p) :
    cut sep p = (p, none) := by
  induction p with
  | nil => rfl
  | cons c t ih =>
    have hc : c ≠ sep := fun h => hp (h ▸ List.mem_cons_self _ _)
    have ht : sep ∉ t := fun h => hp (List.mem_cons_of_mem _ h)
    simp [cut, hc, ih ht]

theorem splitAmp_ne_nil (l : List Char) : splitAmp l ≠ [] := by
  induction l with
  | nil => simp [splitAmp]
  | cons c t ih =>
    simp only [splitAmp]
    split_ifs
    · simp
    · split <;> simp

theorem splitAmp_single (p : List Char) (hp : '&' ∉ p) : splitAmp p = [p] := by
  induction p with
  | nil => rfl
  | cons c t ih =>
    have hc : c ≠ '&' := fun h => hp (h ▸ List.mem_cons_self _ _)
    have ht : '&' ∉ t := fun h => hp (List.mem_cons_of_mem _ h)
    simp [splitAmp, hc, ih ht]

theorem splitAmp_append (p rest : List Char) (hp : '&' ∉ p) :
    splitAmp (p ++ '&' :: rest) = p :: splitAmp rest := by
  induction p with
  | nil => simp [splitAmp]
  | cons c t ih =>
    have hc : c ≠ '&' := fun h => hp (h ▸ List.mem_cons_self _ _)
    have ht : '&' ∉ t := fun h => hp (List.mem_cons_of_mem _ h)
    simp [splitAmp, hc, ih ht]

/-- The text `QueryEscape k ++ "=" ++ QueryEscape v` as a list of characters. -/
theorem pair_toList (k v : String) :
    (QueryEscape k ++ "=" ++ QueryEscape v).toList
      = (QueryEscape k).toList ++ '=' :: (QueryEscape v).toList := by
  simp [String.toList, String.data_append]

theorem parsePair_encoded (k v : String) :
    parsePair ((QueryEscape k).toList ++ '=' :: (QueryEscape v).toList)
      = some (bytes k, bytes v) := by
  have hk : '=' ∉ (QueryEscape k).toList := fun h => (QueryEscape_safe k _ h).2.1 rfl
  have hsemi : ';' ∉ (QueryEscape k).toList ++ '=' :: (QueryEscape v).toList := by
    intro h
    rcases List.mem_append.mp h with h | h
    · exact (QueryEscape_safe k _ h).2.2.1 rfl
    · rcases List.mem_cons.mp h with h | h
      · exact absurd h (by decide)
      · exact (QueryEscape_safe v _ h).2.2.1 rfl
  have hne : (QueryEscape k).toList ++ '=' :: (QueryEscape v).toList ≠ [] := by simp
  simp only [parsePair, hsemi, hne, if_false, cut_append _ _ _ hk, Option.getD_some,
    QueryUnescape_QueryEscape]

theorem amp_not_mem_pair (k v : String) :
    '&' ∉ (QueryEscape k).toList ++ '=' :: (QueryEscape v).toList := by
  intro h
  rcases List.mem_append.mp h with h | h
  · exact (QueryEscape_safe k _ h).1 rfl
  · rcases List.mem_cons.mp h with h | h
    · exact absurd h (by decide)
    · exact (QueryEscape_safe v _ h).1 rfl

theorem intercalate_go_toList (s acc : String) (l : List String) :
    (String.intercalate.go acc s l).toList
      = acc.toList ++ l.flatMap (fun a => s.toList ++ a.toList) := by
  induction l generalizing acc with
  | nil => simp [String.intercalate.go]
  | cons a t ih =>
    rw [String.intercalate.go, ih, List.flatMap_cons]
    simp only [String.toList, String.data_append, List.append_assoc]

theorem filterMap_parsePair_encoded (kv : String × String) (t : List (String × String)) :
    (splitAmp (((QueryEscape kv.1).toList ++ '=' :: (QueryEscape kv.2).toList) ++
        (t.flatMap fun x =>
          '&' :: ((QueryEscape x.1).toList ++ '=' :: (QueryEscape x.2).toList)))).filterMap
        parsePair
      = (bytes kv.1, bytes kv.2) :: t.map fun x => (bytes x.1, bytes x.2) := by
  induction t generalizing kv with
  | nil =>
    rw [List.flatMap_nil, List.append_nil, splitAmp_single _ (amp_not_mem_pair _ _)]
    simp only [List.filterMap_cons, parsePair_encoded, List.filterMap_nil, List.map_nil]
  | cons kv2 t2 ih =>
    rw [List.flatMap_cons, List.cons_append, splitAmp_append _ _ (amp_not_mem_pair _ _)]
    simp only [List.filterMap_cons, parsePair_encoded, List.map_cons]
    rw [ih kv2]

theorem flatMap_pairs (t : List (String × String)) :
    ((t.map fun kv => QueryEscape kv.1 ++ "=" ++ QueryEscape kv.2).flatMap
        fun a => "&".toList ++ a.toList)
      = t.flatMap fun x =>
          '&' :: ((QueryEscape x.1).toList ++ '=' :: (QueryEscape x.2).toList) := by
  induction t with
  | nil => rfl
  | cons x t2 ih =>
    rw [List.map_cons, List.flatMap_cons, List.flatMap_cons, ih, pair_toList]
    rfl

/-- The query of an encoded list of pairs reads back as the bytes of the pairs. -/
theorem Query_encoded (kvs : List (String × String)) :
    Query ("&".intercalate
        (kvs.map fun kv => QueryEscape kv.1 ++ "=" ++ QueryEscape kv.2)).toList
      = kvs.map fun kv => (bytes kv.1, bytes kv.2) := by
  cases kvs with
  | nil => decide
  | cons kv t =>
    have h := filterMap_parsePair_encoded kv t
    have hl : ("&".intercalate
        ((kv :: t).map fun kv => QueryEscape kv.1 ++ "=" ++ QueryEscape kv.2)).toList
        = ((QueryEscape kv.1).toList ++ '=' :: (QueryEscape kv.2).toList) ++
          (t.flatMap fun x =>
            '&' :: ((QueryEscape x.1).toList ++ '=' :: (QueryEscape x.2).toList)) := by
      rw [List.map_cons, String.intercalate, intercalate_go_toList, pair_toList,
        flatMap_pairs]
    rw [Query, hl, h, List.map_cons]

theorem encoded_safe (kvs : List (String × String)) (c : Char)
    (hc : c ∈ ("&".intercalate
      (kvs.map fun kv => QueryEscape kv.1 ++ "=" ++ QueryEscape kv.2)).toList) :
    c ≠ '#' ∧ c ≠ '?' := by
  cases kvs with
  | nil => simp [String.intercalate] at hc
  | cons kv t =>
    rw [List.map_cons, String.intercalate, intercalate_go_toList, pair_toList,
      flatMap_pairs] at hc
    have hpair : ∀ x : String × String,
        ∀ d ∈ (QueryEscape x.1).toList ++ '=' :: (QueryEscape x.2).toList,
        d ≠ '#' ∧ d ≠ '?' := by
      intro x d hd
      rcases List.mem_append.mp hd with h | h
      · exact ⟨(QueryEscape_safe _ _ h).2.2.2.1, (QueryEscape_safe _ _ h).2.2.2.2⟩
      · rcases List.mem_cons.mp h with h | h
        · subst h
          exact ⟨by decide, by decide⟩
        · exact ⟨(QueryEscape_safe _ _ h).2.2.2.1, (QueryEscape_safe _ _ h).2.2.2.2⟩
    rcases List.mem_append.mp hc with h | h
    · exact hpair kv c h
    · obtain ⟨x, -, hx⟩ := List.mem_flatMap.mp h
      rcases List.mem_cons.mp hx with h2 | h2
      · subst h2
        exact ⟨by decide, by decide⟩
      · exact hpair x c h2

theorem RawQuery_append (url : String) (pre q : List Char) (hurl : url.toList = pre ++ '?' :: q)
    (h1 : '#' ∉ pre) (h2 : '?' ∉ pre) (h3 : '#' ∉ q) :
    beforeQuery url = pre ∧ RawQuery url = q := by
  have hfrag : '#' ∉ pre ++ '?' :: q := by
    intro h
    rcases List.mem_append.mp h with h | h
    · exact h1 h
    · rcases List.mem_cons.mp h with h | h
      · exact absurd h (by decide)
      · exact h3 h
  simp only [beforeQuery, RawQuery, hurl, cut_none _ _ hfrag, cut_append _ _ _ h2,
    Option.getD_some, and_self]

theorem transactionsQuery_pairs (start «end» narration tnxType : String) (paginate : Bool) :
    transactionsQuery start «end» narration tnxType paginate
      = "&".intercalate ((transactionsPairs start «end» narration tnxType paginate).map
          fun kv => QueryEscape kv.1 ++ "=" ++ QueryEscape kv.2) := by
  cases paginate <;> by_cases h1 : start = "" <;> by_cases h2 : «end» = "" <;> by_cases h3 : narration = "" <;>
    by_cases h4 : tnxType = "" <;>
    simp only [transactionsQuery, transactionsPairs, h1, h2, h3, h4, if_true, if_false] <;> rfl

/-- The query of the URL `Transactions` builds, when neither the base URL nor
the id holds a `?` or a `#`. -/
theorem Transactions_URL_query (base id start «end» narration tnxType : String)
    (paginate : Bool)
    (hb1 : '?' ∉ base.toList) (hb2 : '#' ∉ base.toList)
    (hi1 : '?' ∉ id.toList) (hi2 : '#' ∉ id.toList) :
    beforeQuery (base ++ "/accounts/" ++ id ++ "/transactions?"
        ++ transactionsQuery start «end» narration tnxType paginate)
      = (base ++ "/accounts/" ++ id ++ "/transactions").toList ∧
    Query (RawQuery (base ++ "/accounts/" ++ id ++ "/transactions?"
        ++ transactionsQuery start «end» narration tnxType paginate))
      = (transactionsPairs start «end» narration tnxType paginate).map
          fun kv => (bytes kv.1, bytes kv.2) := by
  have hurl : (base ++ "/accounts/" ++ id ++ "/transactions?"
        ++ transactionsQuery start «end» narration tnxType paginate).toList
      = (base ++ "/accounts/" ++ id ++ "/transactions").toList ++ '?' ::
        (transactionsQuery start «end» narration tnxType paginate).toList := by
    simp only [String.toList, String.data_append, List.append_assoc]
    rfl
  have hpre : ∀ c ∈ (base ++ "/accounts/" ++ id ++ "/transactions").toList,
      c ≠ '#' ∧ c ≠ '?' := by
    intro c hc
    simp only [String.toList, String.data_append, List.mem_append] at hc
    rcases hc with ((hc | hc) | hc) | hc
    · exact ⟨fun h => hb2 (h ▸ hc), fun h => hb1 (h ▸ hc)⟩
    · revert c
      decide
    · exact ⟨fun h => hi2 (h ▸ hc), fun h => hi1 (h ▸ hc)⟩
    · revert c
      decide
  have hq : '#' ∉ (transactionsQuery start «end» narration tnxType paginate).toList := by
    intro h
    rw [transactionsQuery_pairs] at h
    exact (encoded_safe _ _ h).1 rfl
  obtain ⟨hbq, hrq⟩ := RawQuery_append _ _ _ hurl (fun h => (hpre _ h).1 rfl)
    (fun h => (hpre _ h).2 rfl) hq
  refine ⟨hbq, ?_⟩
  rw [hrq, transactionsQuery_pairs]
  exact Query_encoded _

/-! ## `Transactions` -/

theorem transactionsParams_keys (start «end» narration tnxType : String) (paginate : Bool) :
    (transactionsParams start «end» narration tnxType paginate).map Prod.fst
      = (if start = "" then [] else ["start"]) ++ (if «end» = "" then [] else ["end"]) ++
        (if narration = "" then [] else ["narration"]) ++
        (if tnxType = "" then [] else ["type"]) ++ ["paginate"] := by
  by_cases h1 : start = "" <;> by_cases h2 : «end» = "" <;> by_cases h3 : narration = "" <;>
    by_cases h4 : tnxType = "" <;>
    simp [transactionsParams, Values.Add, h1, h2, h3, h4]

theorem transactionsParams_Encode (start «end» narration tnxType : String) (paginate : Bool) :
    (transactionsParams start «end» narration tnxType paginate).Encode
      = transactionsQuery start «end» narration tnxType paginate := by
  cases paginate <;>
  by_cases h1 : start = "" <;> by_cases h2 : «end» = "" <;> by_cases h3 : narration = "" <;>
    by_cases h4 : tnxType = "" <;>
    simp only [transactionsParams, transactionsQuery, h1, h2, h3, h4, ne_eq,
      not_true_eq_false, not_false_eq_true, if_true, if_false] <;> rfl

/-- C11, as the code has it: for a non-empty id, the parameters `Transactions`
encodes hold `start`, `end`, `narration` and `type` exactly for the arguments
that are not empty, each with the argument as its one value, always hold
`paginate` with `true` or `false` according to the flag, and hold no other key;
every request the call hands to the client is a GET to
`{base}/accounts/{id}/transactions?` followed by these parameters encoded; one
request is handed over when `http.NewRequest` accepts that URL and none when it
rejects it; and when neither the base URL nor the id holds a `?` or a `#`, what
precedes the query in the URL of the request is `{base}/accounts/{id}/transactions`
and its query, as `URL.Query()` reads it, is exactly these parameters with the
bytes of the arguments as values. -/
theorem Transactions_query (lib : Lib) (g : gomono)
    (id start «end» narration tnxType : String) (paginate : Bool) (hid : id ≠ "") :
    (transactionsParams start «end» narration tnxType paginate).lookup "start"
      = (if start = "" then none else some [start]) ∧
    (transactionsParams start «end» narration tnxType paginate).lookup "end"
      = (if «end» = "" then none else some [«end»]) ∧
    (transactionsParams start «end» narration tnxType paginate).lookup "narration"
      = (if narration = "" then none else some [narration]) ∧
    (transactionsParams start «end» narration tnxType paginate).lookup "type"
      = (if tnxType = "" then none else some [tnxType]) ∧
    (transactionsParams start «end» narration tnxType paginate).lookup "paginate"
      = some [if paginate then "true" else "false"] ∧
    (∀ k ∈ (transactionsParams start «end» narration tnxType paginate).map Prod.fst,
      k = "start" ∨ k = "end" ∨ k = "narration" ∨ k = "type" ∨ k = "paginate") ∧
    ((transactionsParams start «end» narration tnxType paginate).map Prod.fst).Nodup ∧
    (∀ req ∈ (Transactions lib g id start «end» narration tnxType paginate).sent,
      req.Method = "GET" ∧
      req.URL = g.apiUrl ++ "/accounts/" ++ id ++ "/transactions?"
        ++ transactionsQuery start «end» narration tnxType paginate) ∧
    (∀ client, g.client = some client →
      lib.checkRequest "GET" (g.apiUrl ++ "/accounts/" ++ id ++ "/transactions?"
        ++ transactionsQuery start «end» narration tnxType paginate) = none →
      ∃ req, (Transactions lib g id start «end» narration tnxType paginate).sent = [req]) ∧
    (∀ e, lib.checkRequest "GET" (g.apiUrl ++ "/accounts/" ++ id ++ "/transactions?"
        ++ transactionsQuery start «end» narration tnxType paginate) = some e →
      noExchange e (Transactions lib g id start «end» narration tnxType paginate)) ∧
    (∀ req ∈ (Transactions lib g id start «end» narration tnxType paginate).sent,
      '?' ∉ g.apiUrl.toList → '#' ∉ g.apiUrl.toList → '?' ∉ id.toList → '#' ∉ id.toList →
      beforeQuery req.URL = (g.apiUrl ++ "/accounts/" ++ id ++ "/transactions").toList ∧
      Query (RawQuery req.URL)
        = (transactionsPairs start «end» narration tnxType paginate).map
            fun kv => (bytes kv.1, bytes kv.2)) := by
  have hsent : ∀ req ∈ (Transactions lib g id start «end» narration tnxType paginate).sent,
      req.Method = "GET" ∧
      req.URL = g.apiUrl ++ "/accounts/" ++ id ++ "/transactions?"
        ++ transactionsQuery start «end» narration tnxType paginate := by
    intro req hreq
    simp only [Transactions, hid, if_false] at hreq
    have hmem : req ∈ (makeRequest lib g "GET" (g.apiUrl ++ "/accounts/" ++ id
        ++ "/transactions?"
        ++ (transactionsParams start «end» narration tnxType paginate).Encode) none []
        lib.unmarshalTransactions (.pointer TransactionsResponse.zero)).sent := by
      revert hreq
      cases (makeRequest lib g "GET" (g.apiUrl ++ "/accounts/" ++ id
        ++ "/transactions?"
        ++ (transactionsParams start «end» narration tnxType paginate).Encode) none []
        lib.unmarshalTransactions (.pointer TransactionsResponse.zero)).err <;>
        exact fun h => h
    obtain ⟨req0, h0, rfl⟩ := makeRequest_sent_eq _ _ _ _ _ _ _ _ _ hmem
    rw [applyHeaders_URL, applyHeaders_Method, ← transactionsParams_Encode]
    simp only [NewRequest] at h0
    split at h0
    · cases h0
    · cases h0
      exact ⟨rfl, rfl⟩
  refine ⟨?_, ?_, ?_, ?_, ?_, ?_, ?_, hsent, ?_, ?_, ?_⟩
  · by_cases h1 : start = "" <;> by_cases h2 : «end» = "" <;>
      by_cases h3 : narration = "" <;> by_cases h4 : tnxType = "" <;>
      simp [transactionsParams, Values.Add, h1, h2, h3, h4, List.lookup]
  · by_cases h1 : start = "" <;> by_cases h2 : «end» = "" <;>
      by_cases h3 : narration = "" <;> by_cases h4 : tnxType = "" <;>
      simp [transactionsParams, Values.Add, h1, h2, h3, h4, List.lookup]
  · by_cases h1 : start = "" <;> by_cases h2 : «end» = "" <;>
      by_cases h3 : narration = "" <;> by_cases h4 : tnxType = "" <;>
      simp [transactionsParams, Values.Add, h1, h2, h3, h4, List.lookup]
  · by_cases h1 : start = "" <;> by_cases h2 : «end» = "" <;>
      by_cases h3 : narration = "" <;> by_cases h4 : tnxType = "" <;>
      simp [transactionsParams, Values.Add, h1, h2, h3, h4, List.lookup]
  · cases paginate <;> by_cases h1 : start = "" <;> by_cases h2 : «end» = "" <;>
      by_cases h3 : narration = "" <;> by_cases h4 : tnxType = "" <;>
      simp [transactionsParams, Values.Add, h1, h2, h3, h4, List.lookup, FormatBool]
  · intro k hk
    rw [transactionsParams_keys] at hk
    by_cases h1 : start = "" <;> by_cases h2 : «end» = "" <;>
      by_cases h3 : narration = "" <;> by_cases h4 : tnxType = "" <;>
      simp [h1, h2, h3, h4] at hk <;> tauto
  · rw [transactionsParams_keys]
    by_cases h1 : start = "" <;> by_cases h2 : «end» = "" <;>
      by_cases h3 : narration = "" <;> by_cases h4 : tnxType = "" <;>
      simp [h1, h2, h3, h4]
  · intro client hclient hcheck
    rw [← transactionsParams_Encode] at hcheck
    have h := wrap_oneExchange client _ (none : Option TransactionsResponse) some
      (makeRequest_oneExchange lib g "GET" _ none [] lib.unmarshalTransactions
        TransactionsResponse.zero client hclient (by decide) hcheck)
    obtain ⟨req, hs, -⟩ := h
    exact ⟨req, by simpa only [Transactions, hid, if_false] using hs⟩
  · intro e hcheck
    rw [← transactionsParams_Encode] at hcheck
    have h := wrap_noExchange e _ (none : Option TransactionsResponse) some
      (makeRequest_noExchange lib g "GET" _ none [] lib.unmarshalTransactions
        TransactionsResponse.zero e (by decide) hcheck)
    simpa only [Transactions, hid, if_false] using h
  · intro req hreq hb1 hb2 hi1 hi2
    rw [(hsent req hreq).2]
    exact Transactions_URL_query g.apiUrl id start «end» narration tnxType paginate
      hb1 hb2 hi1 hi2

/-- C11, at concrete inputs: the call of the tests, and a call whose arguments
need escaping. -/
theorem Transactions_query_witness :
    testAccountId ≠ "" ∧
    (Transactions testLib (testClient refuse) testAccountId "01-10-2020" "07-10-2020" "test"
        "debit" true).sent.map (fun r => (r.Method, r.URL))
      = [("GET", "http://127.0.0.1:8080/accounts/5fc68b964bdcbe4eb164e852/transactions?end=07-10-2020&narration=test&paginate=true&start=01-10-2020&type=debit")] ∧
    (Transactions testLib (testClient refuse) testAccountId "a b&c" "" "" "é=1" false).sent.map
        (fun r => (r.Method, r.URL))
      = [("GET", "http://127.0.0.1:8080/accounts/5fc68b964bdcbe4eb164e852/transactions?paginate=false&start=a+b%26c&type=%C3%A9%3D1")] ∧
    (∀ req ∈ (Transactions testLib (testClient refuse) testAccountId "a b&c" "" "" "é=1"
        false).sent,
      beforeQuery req.URL
        = "http://127.0.0.1:8080/accounts/5fc68b964bdcbe4eb164e852/transactions".toList ∧
      Query (RawQuery req.URL)
        = [(bytes "paginate", bytes "false"), (bytes "start", bytes "a b&c"),
           (bytes "type", bytes "é=1")]) ∧
    (transactionsParams "a b&c" "" "" "é=1" false).lookup "end" = none :=
  have H := Transactions_query testLib (testClient refuse) testAccountId "a b&c" "" "" "é=1"
    false (by decide)
  ⟨by decide, by decide, by decide,
    fun req hreq => H.2.2.2.2.2.2.2.2.2.2 req hreq (by decide) (by decide) (by decide)
      (by decide),
    H.2.1⟩

/-- C11 as stated fails: with an id that holds a line feed `Transactions` passes
validation and hands no request to the client; with the id `a?x=1` the request
handed over is a GET whose path ends at `/accounts/a` and whose query holds the
one key `x` and no `paginate`. -/
theorem Transactions_query_counterexample :
    ("a\nb" ≠ "" ∧
      (Transactions testLib (testClient refuse) "a\nb" "" "" "" "" true).sent = []) ∧
    ("a?x=1" ≠ "" ∧
      (Transactions testLib (testClient refuse) "a?x=1" "" "" "" "" true).sent.map
          (fun r => (r.Method, beforeQuery r.URL, Query (RawQuery r.URL)))
        = [("GET", "http://127.0.0.1:8080/accounts/a".toList,
            [(bytes "x", bytes "1/transactions?paginate=true")])]) := by
  refine ⟨⟨by decide, by decide⟩, ⟨by decide, by decide⟩⟩

/-! ## `NewDefaultConfig` -/

/-- C12: for every string `k`, `NewDefaultConfig(k)` has secret key `k`, a
non-nil HTTP client whose timeout is five seconds, and the base endpoint
`https://api.withmono.com`; `New` on it returns a client and no error exactly
when `k` is not empty, then holding these three values, and a nil client with
the missing-secret-key error when `k` is empty. -/
theorem NewDefaultConfig_spec (defaultDo : Request → Except LibError Response) (k : String) :
    (NewDefaultConfig defaultDo k).SecretKey = k ∧
    (∃ c, (NewDefaultConfig defaultDo k).HttpClient = some c ∧ c.Timeout = 5 * Second ∧
      c.Timeout = 5000000000) ∧
    (NewDefaultConfig defaultDo k).ApiUrl = "https://api.withmono.com" ∧
    (((New (NewDefaultConfig defaultDo k)).1 ≠ none ∧
        (New (NewDefaultConfig defaultDo k)).2 = none) ↔ k ≠ "") ∧
    (k ≠ "" → New (NewDefaultConfig defaultDo k)
      = (some ⟨k, some ⟨5 * Second, defaultDo⟩, "https://api.withmono.com"⟩, none)) ∧
    (k = "" → New (NewDefaultConfig defaultDo k)
      = (none, some (.new "gomono: Missing Secret Key"))) := by
  refine ⟨rfl, ⟨_, rfl, rfl, rfl⟩, rfl, ?_, ?_, ?_⟩
  · by_cases hk : k = "" <;> simp [New, validateConfig, NewDefaultConfig, hk]
  · intro hk
    simp [New, validateConfig, NewDefaultConfig, hk]
  · intro hk
    simp [New, validateConfig, NewDefaultConfig, hk]

/-! ## `ExchangeToken`: a response without `id` -/

/-- C13: for a non-empty code, when the client answers the POST to
`{base}/account/auth` with status 200 and a body that `json.Unmarshal` decodes
into a map with no `id` key, `ExchangeToken` returns the empty string and a nil
error. -/
theorem ExchangeToken_missing_id (lib : Lib) (g : gomono) (client : HttpClient)
    (code p b : String) (m : StringMap)
    (hcode : code ≠ "") (hclient : g.client = some client)
    (hp : lib.jsonMarshal [("code", code)] = .ok p)
    (hcheck : lib.checkRequest "POST" (g.apiUrl ++ "/account/auth") = none)
    (hdo : ∀ req : Request, req.Method = "POST" → req.URL = g.apiUrl ++ "/account/auth" →
      client.Do req = .ok ⟨200, .ok b⟩)
    (hjson : lib.unmarshalMap b [] = (m, none))
    (hno : m.lookup "id" = none) :
    (ExchangeToken lib g code).value = "" ∧ (ExchangeToken lib g code).err = none := by
  have hreq := NewRequest_ok lib "POST" (g.apiUrl ++ "/account/auth") (some p) (by decide)
    hcheck
  have hm := makeRequest_decoded lib g "POST" _ (some p) [] lib.unmarshalMap [] m client _ _
    hclient hreq (hdo _ (applyHeaders_Method _ _ _) (applyHeaders_URL _ _ _)) hjson
  constructor <;>
    simp [ExchangeToken, hcode, preparePayload, hp, hm, StringMap.index, hno]

/-- C13, at concrete inputs: the body `{}`. -/
theorem ExchangeToken_missing_id_witness :
    "TEST_MONO_CONNECT_CODE" ≠ "" ∧
    readStringMap "\x7b\x7d" [] = ([], none) ∧
    (ExchangeToken testLib (testClient (respond 200 "\x7b\x7d"))
      "TEST_MONO_CONNECT_CODE").value = "" ∧
    (ExchangeToken testLib (testClient (respond 200 "\x7b\x7d"))
      "TEST_MONO_CONNECT_CODE").err = none :=
  have H := ExchangeToken_missing_id testLib (testClient (respond 200 "\x7b\x7d"))
    (respond 200 "\x7b\x7d") "TEST_MONO_CONNECT_CODE" _ "\x7b\x7d" []
    (by decide) rfl rfl rfl (fun _ _ _ => rfl) rfl rfl
  ⟨by decide, rfl, H.1, H.2⟩

/-! ## The invalid-target branch -/

theorem makeRequest_pointer_err {α : Type} (lib : Lib) (g : gomono) (method url : String)
    (body : Option String) (headers : List header) (unmarshal : Unmarshal α) (v : α)
    (msg : String) :
    (makeRequest lib g method url body headers unmarshal (.pointer v)).err
      ≠ some (.new msg) := by
  simp only [makeRequest, ResponseTarget.isPtr, ResponseTarget.content]
  cases hreq : NewRequest lib method url body with
  | error e => simp
  | ok req0 =>
    cases hc : g.client with
    | none => simp
    | some client =>
      cases hdo : client.Do (applyHeaders g headers req0) with
      | error e => simp [hdo]
      | ok resp =>
        cases hb : resp.Body with
        | error e => simp [hdo, hb]
        | ok b =>
          by_cases hs : resp.StatusCode = 200
          · rcases hu : unmarshal b v with ⟨w, _ | err⟩ <;> simp [hdo, hb, hs, hu]
          · simp [hdo, hb, hs]

theorem wrap_err_ne {α ρ : Type} (r : Outcome α) (zero : ρ) (f : α → ρ) (e : GoError)
    (h : r.err ≠ some e) :
    (match r.err with
      | some err => (⟨zero, some err, r.sent⟩ : Outcome ρ)
      | none => ⟨f r.value, none, r.sent⟩).err ≠ some e := by
  revert h
  cases r.err <;> simp

/-- C14: a target that is not a pointer makes `makeRequest` return the
invalid-target error without sending anything, and no call of any of the eleven
endpoint methods returns that error, whatever the arguments, the library and
the client: each of them passes a pointer as the target. -/
theorem invalid_target_unreachable (lib : Lib) (g : gomono) :
    (∀ (α : Type) (method url : String) (body : Option String) (headers : List header)
      (unmarshal : Unmarshal α) (v : α),
      (makeRequest lib g method url body headers unmarshal (.value v)).err
        = some invalidTarget ∧
      (makeRequest lib g method url body headers unmarshal (.value v)).sent = [] ∧
      (makeRequest lib g method url body headers unmarshal (.pointer v)).err
        ≠ some invalidTarget) ∧
    (∀ code, (ExchangeToken lib g code).err ≠ some invalidTarget) ∧
    (∀ id, (Information lib g id).err ≠ some invalidTarget) ∧
    (∀ id period output, (Statement lib g id period output).err ≠ some invalidTarget) ∧
    (∀ id jobId, (PdfStatementJobStatus lib g id jobId).err ≠ some invalidTarget) ∧
    (∀ id start «end» narration tnxType paginate,
      (Transactions lib g id start «end» narration tnxType paginate).err
        ≠ some invalidTarget) ∧
    (∀ id, (CreditTransactions lib g id).err ≠ some invalidTarget) ∧
    (∀ id, (DebitTransactions lib g id).err ≠ some invalidTarget) ∧
    (∀ id, (Income lib g id).err ≠ some invalidTarget) ∧
    (∀ id, (Identity lib g id).err ≠ some invalidTarget) ∧
    (Institutions lib g).err ≠ some invalidTarget ∧
    (∀ bvn, (LookupBVN lib g bvn).err ≠ some invalidTarget) := by
  refine ⟨?_, ?_, ?_, ?_, ?_, ?_, ?_, ?_, ?_, ?_, ?_, ?_⟩
  · intro α method url body headers unmarshal v
    exact ⟨rfl, rfl, makeRequest_pointer_err _ _ _ _ _ _ _ _ _⟩
  · intro code
    unfold ExchangeToken
    split
    · simp [invalidTarget]
    · unfold preparePayload
      cases lib.jsonMarshal [("code", code)] with
      | error e => simp [invalidTarget]
      | ok p =>
        exact wrap_err_ne _ "" (fun m => StringMap.index m "id") _
          (makeRequest_pointer_err _ _ _ _ _ _ _ _ _)
  · intro id
    unfold Information
    split
    · simp [invalidTarget]
    · exact wrap_err_ne _ none some _ (makeRequest_pointer_err _ _ _ _ _ _ _ _ _)
  · intro id period output
    unfold Statement
    split
    · simp [invalidTarget]
    · dsimp only
      split
      · simp [invalidTarget]
      · split
        · exact wrap_err_ne _ none
            (fun x => some (⟨StatementResponse.zero.JSON, some x⟩ : StatementResponse)) _
            (makeRequest_pointer_err _ _ _ _ _ _ _ _ _)
        · split
          · exact wrap_err_ne _ none
              (fun x => some (⟨some x, StatementResponse.zero.PDF⟩ : StatementResponse)) _
              (makeRequest_pointer_err _ _ _ _ _ _ _ _ _)
          · simp
  · intro id jobId
    unfold PdfStatementJobStatus
    split
    · simp [invalidTarget]
    · split
      · simp [invalidTarget]
      · exact wrap_err_ne _ none some _ (makeRequest_pointer_err _ _ _ _ _ _ _ _ _)
  · intro id start e narration tnxType paginate
    unfold Transactions
    split
    · simp [invalidTarget]
    · exact wrap_err_ne _ none some _ (makeRequest_pointer_err _ _ _ _ _ _ _ _ _)
  · intro id
    unfold CreditTransactions transactionByType
    split
    · simp [invalidTarget]
    · exact wrap_err_ne _ none some _ (makeRequest_pointer_err _ _ _ _ _ _ _ _ _)
  · intro id
    unfold DebitTransactions transactionByType
    split
    · simp [invalidTarget]
    · exact wrap_err_ne _ none some _ (makeRequest_pointer_err _ _ _ _ _ _ _ _ _)
  · intro id
    unfold Income
    split
    · simp [invalidTarget]
    · exact wrap_err_ne _ none some _ (makeRequest_pointer_err _ _ _ _ _ _ _ _ _)
  · intro id
    unfold Identity
    split
    · simp [invalidTarget]
    · exact wrap_err_ne _ none some _ (makeRequest_pointer_err _ _ _ _ _ _ _ _ _)
  · unfold Institutions
    exact wrap_err_ne _ none (fun x => some (⟨x⟩ : InstitutionsResponse)) _
      (makeRequest_pointer_err _ _ _ _ _ _ _ _ _)
  · intro bvn
    unfold LookupBVN
    split
    · simp [invalidTarget]
    · unfold preparePayload
      cases lib.jsonMarshal [("bvn", bvn)] with
      | error e => simp [invalidTarget]
      | ok p =>
        exact wrap_err_ne _ none some _ (makeRequest_pointer_err _ _ _ _ _ _ _ _ _)

end Gomono
